import Mathlib

/-!
Verification of the drawing-archive analysis pipeline (backend/app):
a shallow embedding of the three-phase analyzer (`archive_analyzer.py`),
the trigger/status endpoints (`routers/archive.py`, `routers/lenses.py`)
and the relational schema (`database.py`), together with theorems about
the properties stated in the specification.

Conventions of the embedding:
* SQLite tables become lists of records; `INSERT OR IGNORE` under a
  UNIQUE constraint becomes "append unless a row with the same key
  exists"; `UPDATE ... WHERE` becomes a map over the list.
* Machine floats (`relevance_score`, `relevance_threshold`) are
  modelled as rationals (`Rat`); the claims under study compare scores
  only with `=` and `≥`, which floats realise exactly for the values
  involved.
* Python exceptions are modelled as `Except String` / explicit error
  fields; external effects (file reads, inference-service calls, the
  prompt registry, the clock) are an explicit environment of functions.
* `json.loads` is modelled by a fuel-based recursive-descent JSON
  reader over the character list of the input; fuel `4*length + 8` is
  larger than any possible recursion depth, so the reader is total.
-/

set_option maxHeartbeats 1600000

/-- JSON values as produced by `json.loads`.  Numbers are rationals. -/
inductive Json where
  | null : Json
  | bool (b : Bool) : Json
  | num (q : Rat) : Json
  | str (s : String) : Json
  | arr (elems : List Json) : Json
  | obj (fields : List (String × Json)) : Json

/-- The backtick character, written via its code point. -/
def btick : Char := Char.ofNat 96

/-- The opening-brace character, written via its code point. -/
def obrace : Char := Char.ofNat 123

/-- The closing-brace character, written via its code point. -/
def cbrace : Char := Char.ofNat 125

/-- Whitespace characters stripped by Python's `str.strip()` (ASCII part). -/
def pySpaceChar (c : Char) : Bool :=
  c = ' ' || c = '\t' || c = '\n' || c = '\x0d' || c = '\x0b' || c = '\x0c'

/-- Python `str.strip()` on a character list. -/
def pyStrip (s : List Char) : List Char :=
  ((s.dropWhile pySpaceChar).reverse.dropWhile pySpaceChar).reverse

/-- `s.startswith(p)` on character lists. -/
def listStartsWith (p s : List Char) : Bool := s.take p.length = p

/-- `s.endswith(p)` on character lists. -/
def listEndsWith (p s : List Char) : Bool := listStartsWith p.reverse s.reverse

/-- `s.find(c)`: index of the first occurrence, `none` when absent. -/
def firstIdxOf (c : Char) : List Char → Option Nat
  | [] => none
  | x :: xs => if x = c then some 0 else (firstIdxOf c xs).map (· + 1)

/-- Index of the last occurrence of a character, `none` when absent. -/
def lastIdxOf (c : Char) (s : List Char) : Option Nat :=
  (firstIdxOf c s.reverse).map (fun i => s.length - 1 - i)

/-- `s.rfind(pat)`: start index of the last occurrence of `pat` in `s`. -/
def rfindPat (pat s : List Char) : Option Nat :=
  ((List.range (s.length + 1)).filter (fun i => listStartsWith pat (s.drop i))).getLast?

/-- `ArchiveAnalyzer._strip_markdown_fences`: strip, drop a leading
fenced-block marker line and a trailing fence, strip again.  When the text
starts with a fence but holds no newline, Python's `find` returns `-1` and
the slice `text[0:]` leaves the text unchanged. -/
def strip_markdown_fences (text : String) : String :=
  let fence : List Char := [btick, btick, btick]
  let t0 := pyStrip text.data
  let t1 := if listStartsWith fence t0 then
      match firstIdxOf '\n' t0 with
      | some i => t0.drop (i + 1)
      | none => t0
    else t0
  let t2 := if listEndsWith fence t1 then
      match rfindPat fence t1 with
      | some i => t1.take i
      | none => t1
    else t1
  String.mk (pyStrip t2)

/-! ### A model of `json.loads` -/

/-- JSON whitespace accepted between tokens by `json.loads`. -/
def jsonWsChar (c : Char) : Bool := c = ' ' || c = '\t' || c = '\n' || c = '\x0d'

/-- Skip JSON whitespace. -/
def skipWs (s : List Char) : List Char := s.dropWhile jsonWsChar

/-- Value of a hexadecimal digit. -/
def hexVal (c : Char) : Option Nat :=
  if '0' ≤ c ∧ c ≤ '9' then some (c.toNat - '0'.toNat)
  else if 'a' ≤ c ∧ c ≤ 'f' then some (c.toNat - 'a'.toNat + 10)
  else if 'A' ≤ c ∧ c ≤ 'F' then some (c.toNat - 'A'.toNat + 10)
  else none

/-- Decode one escape sequence after a backslash inside a JSON string. -/
def parseEscape : List Char → Option (Char × List Char)
  | 'u' :: a :: b :: c :: d :: rest =>
    match hexVal a, hexVal b, hexVal c, hexVal d with
    | some x, some y, some z, some w => some (Char.ofNat (((x * 16 + y) * 16 + z) * 16 + w), rest)
    | _, _, _, _ => none
  | '"' :: rest => some ('"', rest)
  | '\\' :: rest => some ('\\', rest)
  | '/' :: rest => some ('/', rest)
  | 'n' :: rest => some ('\n', rest)
  | 't' :: rest => some ('\t', rest)
  | 'r' :: rest => some ('\x0d', rest)
  | 'b' :: rest => some ('\x08', rest)
  | 'f' :: rest => some ('\x0c', rest)
  | _ => none

/-- Body of a JSON string after the opening quote; returns the decoded
content and the remainder after the closing quote. -/
def parseStrBody : Nat → List Char → Option (List Char × List Char)
  | 0, _ => none
  | _, [] => none
  | fuel + 1, c :: rest =>
    if c = '"' then some ([], rest)
    else if c = '\\' then
      match parseEscape rest with
      | some (ch, rest') =>
        match parseStrBody fuel rest' with
        | some (cs, rr) => some (ch :: cs, rr)
        | none => none
      | none => none
    else
      match parseStrBody fuel rest with
      | some (cs, rr) => some (c :: cs, rr)
      | none => none

/-- Decimal digit test. -/
def isDigitChar (c : Char) : Bool := '0' ≤ c && c ≤ '9'

/-- Fold a digit run into a natural number. -/
def digitsToNat (ds : List Char) : Nat :=
  ds.foldl (fun acc c => acc * 10 + (c.toNat - '0'.toNat)) 0

/-- Parse a JSON number into a rational, returning the remainder. -/
def parseNumber (s : List Char) : Option (Rat × List Char) :=
  let (sgn, s1) : Int × List Char :=
    match s with
    | '-' :: rest => (-1, rest)
    | _ => (1, s)
  let intDigits := s1.takeWhile isDigitChar
  if intDigits = [] then none
  else
    let s2 := s1.drop intDigits.length
    let (fracDigits, s3) : List Char × List Char :=
      match s2 with
      | '.' :: rest => (rest.takeWhile isDigitChar, rest.drop (rest.takeWhile isDigitChar).length)
      | _ => ([], s2)
    if s2 ≠ [] ∧ s2.take 1 = ['.'] ∧ fracDigits = [] then none
    else
      let (expVal, s4) : Option Int × List Char :=
        match s3 with
        | 'e' :: rest => match rest with
          | '-' :: rest2 =>
            let ds := rest2.takeWhile isDigitChar
            if ds = [] then (none, s3) else (some (-(digitsToNat ds : Int)), rest2.drop ds.length)
          | '+' :: rest2 =>
            let ds := rest2.takeWhile isDigitChar
            if ds = [] then (none, s3) else (some (digitsToNat ds : Int), rest2.drop ds.length)
          | _ =>
            let ds := rest.takeWhile isDigitChar
            if ds = [] then (none, s3) else (some (digitsToNat ds : Int), rest.drop ds.length)
        | 'E' :: rest => match rest with
          | '-' :: rest2 =>
            let ds := rest2.takeWhile isDigitChar
            if ds = [] then (none, s3) else (some (-(digitsToNat ds : Int)), rest2.drop ds.length)
          | '+' :: rest2 =>
            let ds := rest2.takeWhile isDigitChar
            if ds = [] then (none, s3) else (some (digitsToNat ds : Int), rest2.drop ds.length)
          | _ =>
            let ds := rest.takeWhile isDigitChar
            if ds = [] then (none, s3) else (some (digitsToNat ds : Int), rest.drop ds.length)
        | _ => (none, s3)
      let base : Rat :=
        (digitsToNat intDigits : Rat) + (digitsToNat fracDigits : Rat) / ((10 : Rat) ^ fracDigits.length)
      let scaled : Rat :=
        match expVal with
        | some e => if e ≥ 0 then base * (10 : Rat) ^ e.toNat else base / ((10 : Rat) ^ (-e).toNat)
        | none => base
      some ((sgn : Rat) * scaled, s4)

mutual

/-- Recursive-descent JSON value reader (fuel-based). -/
def parseValue : Nat → List Char → Option (Json × List Char)
  | 0, _ => none
  | fuel + 1, s =>
    match skipWs s with
    | [] => none
    | c :: rest =>
      if c = '"' then
        match parseStrBody (rest.length + 1) rest with
        | some (cs, rr) => some (Json.str (String.mk cs), rr)
        | none => none
      else if c = '[' then parseArrayTail fuel rest
      else if c = obrace then parseObjTail fuel rest
      else if c = 't' then
        match rest with
        | 'r' :: 'u' :: 'e' :: rr => some (Json.bool true, rr)
        | _ => none
      else if c = 'f' then
        match rest with
        | 'a' :: 'l' :: 's' :: 'e' :: rr => some (Json.bool false, rr)
        | _ => none
      else if c = 'n' then
        match rest with
        | 'u' :: 'l' :: 'l' :: rr => some (Json.null, rr)
        | _ => none
      else
        match parseNumber (c :: rest) with
        | some (q, rr) => some (Json.num q, rr)
        | none => none

/-- After an opening bracket: parse the elements of an array. -/
def parseArrayTail : Nat → List Char → Option (Json × List Char)
  | 0, _ => none
  | fuel + 1, s =>
    match skipWs s with
    | ']' :: rr => some (Json.arr [], rr)
    | s' =>
      match parseElems fuel s' with
      | some (es, rr) => some (Json.arr es, rr)
      | none => none

/-- One or more comma-separated array elements, then the closing bracket. -/
def parseElems : Nat → List Char → Option (List Json × List Char)
  | 0, _ => none
  | fuel + 1, s =>
    match parseValue fuel s with
    | some (v, rest) =>
      match skipWs rest with
      | ',' :: rest2 =>
        match parseElems fuel rest2 with
        | some (es, rr) => some (v :: es, rr)
        | none => none
      | ']' :: rr => some ([v], rr)
      | _ => none
    | none => none

/-- After an opening brace: parse the fields of an object. -/
def parseObjTail : Nat → List Char → Option (Json × List Char)
  | 0, _ => none
  | fuel + 1, s =>
    match skipWs s with
    | c :: rr =>
      if c = cbrace then some (Json.obj [], rr)
      else
        match parseFields fuel (c :: rr) with
        | some (fs, rest) => some (Json.obj fs, rest)
        | none => none
    | [] => none

/-- One or more comma-separated `"key": value` fields, then the closing brace. -/
def parseFields : Nat → List Char → Option (List (String × Json) × List Char)
  | 0, _ => none
  | fuel + 1, s =>
    match skipWs s with
    | '"' :: rest =>
      match parseStrBody (rest.length + 1) rest with
      | some (k, afterKey) =>
        match skipWs afterKey with
        | ':' :: afterColon =>
          match parseValue fuel afterColon with
          | some (v, afterVal) =>
            match skipWs afterVal with
            | ',' :: rest2 =>
              match parseFields fuel rest2 with
              | some (fs, rr) => some ((String.mk k, v) :: fs, rr)
              | none => none
            | c :: rr =>
              if c = cbrace then some ([(String.mk k, v)], rr) else none
            | [] => none
          | none => none
        | _ => none
      | none => none
    | _ => none

end

/-- Model of Python `json.loads`: parse one value and require that only
whitespace remains. -/
def json_loads (text : String) : Option Json :=
  let cs := text.data
  match parseValue (4 * cs.length + 8) cs with
  | some (v, rest) => if skipWs rest = [] then some v else none
  | none => none

/-- Lookup in a decoded JSON object, later duplicate keys shadowing earlier
ones exactly as in a Python dict built from a JSON object. -/
def objGet (fields : List (String × Json)) (key : String) : Option Json :=
  (fields.reverse.find? (fun kv => kv.1 = key)).map (fun kv => kv.2)

/-- Model of the regex fallback `re.search(r'OPEN.*CLOSE', text, re.DOTALL)`
used by the response parser.  With a greedy dot the leftmost match spans
from the first occurrence of the opening character to the last occurrence of
the closing character, provided the former precedes the latter. -/
def re_bracket_span (openC closeC : Char) (s : List Char) : Option (List Char) :=
  match firstIdxOf openC s, lastIdxOf closeC s with
  | some i, some j => if i < j then some ((s.drop i).take (j - i + 1)) else none
  | _, _ => none

/-- `ArchiveAnalyzer._parse_json_list`: strip fences, try a direct parse and
keep it when it is an array, otherwise try the regex-extracted bracket span
(the extracted span begins with an opening bracket, so a successful parse of
it can only be an array), otherwise return the empty list. -/
def parse_json_list (text : String) : List Json :=
  let t := strip_markdown_fences text
  match json_loads t with
  | some (Json.arr result) => result
  | _ =>
    match re_bracket_span '[' ']' t.data with
    | some sub =>
      match json_loads (String.mk sub) with
      | some (Json.arr xs) => xs
      | _ => []
    | none => []

/-- `ArchiveAnalyzer._parse_json_dict`: strip fences, try a direct parse and
keep it when it is an object, otherwise try the regex-extracted brace span,
otherwise return the empty object. -/
def parse_json_dict (text : String) : List (String × Json) :=
  let t := strip_markdown_fences text
  match json_loads t with
  | some (Json.obj result) => result
  | _ =>
    match re_bracket_span obrace cbrace t.data with
    | some sub =>
      match json_loads (String.mk sub) with
      | some (Json.obj fs) => fs
      | _ => []
    | none => []

/-- Direct parse "as JSON of the expected shape (array)". -/
def loads_as_list (t : String) : Option (List Json) :=
  match json_loads t with
  | some (Json.arr xs) => some xs
  | _ => none

/-- Direct parse "as JSON of the expected shape (object)". -/
def loads_as_dict (t : String) : Option (List (String × Json)) :=
  match json_loads t with
  | some (Json.obj fs) => some fs
  | _ => none

/-- Modelled from the spec (§4.4): strip a fence marker if present; attempt a
direct parse of the expected array shape; on failure parse the substring
bounded by the first opening and last closing bracket; on repeated failure
return the empty list. -/
def parse_list_spec (text : String) : List Json :=
  let t := strip_markdown_fences text
  match loads_as_list t with
  | some xs => xs
  | none =>
    match re_bracket_span '[' ']' t.data with
    | some sub => (loads_as_list (String.mk sub)).getD []
    | none => []

/-- Modelled from the spec (§4.4): the object-shaped analogue of
`parse_list_spec`. -/
def parse_dict_spec (text : String) : List (String × Json) :=
  let t := strip_markdown_fences text
  match loads_as_dict t with
  | some fs => fs
  | none =>
    match re_bracket_span obrace cbrace t.data with
    | some sub => (loads_as_dict (String.mk sub)).getD []
    | none => []

/-- Sanity check (spec §8 round-trip): a fenced JSON array parses directly. -/
theorem parse_list_example_fenced :
    parse_json_list "```json\n[\x7b\"filename\":\"a.jpg\",\"annotation\":\"x\"\x7d]\n```"
      = [Json.obj [("filename", Json.str "a.jpg"), ("annotation", Json.str "x")]] := by
  rfl

/-- Sanity check (spec §8 round-trip): surrounding prose is handled by the
bracket-span fallback. -/
theorem parse_list_example_prose :
    parse_json_list "Here you go: [\x7b\"filename\":\"a.jpg\",\"annotation\":\"x\"\x7d] thanks"
      = [Json.obj [("filename", Json.str "a.jpg"), ("annotation", Json.str "x")]] := by
  rfl

/-- Sanity check (spec §8 round-trip): non-JSON input degrades to the empty
list without raising. -/
theorem parse_list_example_garbage :
    parse_json_list "not json at all" = [] := by
  rfl

/-- C7: the response parser never raises (it is a total function into plain
lists/objects) and follows exactly the spec's algorithm: strip a fence
marker, attempt a direct parse of the expected shape, on failure parse the
span from the first opening to the last closing bracket/brace, and on
repeated failure return the empty result. -/
theorem claim_C7_tolerant_response_parsing :
    ∀ text : String,
      parse_json_list text = parse_list_spec text ∧
      parse_json_dict text = parse_dict_spec text := by
  intro text
  constructor
  · simp only [parse_json_list, parse_list_spec, loads_as_list]
    cases hj : json_loads (strip_markdown_fences text) with
    | none =>
      cases hs : re_bracket_span '[' ']' (strip_markdown_fences text).data with
      | none => simp_all
      | some sub =>
        cases hj2 : json_loads (String.mk sub) with
        | none => simp_all
        | some v => cases v <;> simp_all
    | some v =>
      cases v with
      | arr xs => simp_all
      | _ =>
        cases hs : re_bracket_span '[' ']' (strip_markdown_fences text).data with
        | none => simp_all
        | some sub =>
          cases hj2 : json_loads (String.mk sub) with
          | none => simp_all
          | some v2 => cases v2 <;> simp_all
  · simp only [parse_json_dict, parse_dict_spec, loads_as_dict]
    cases hj : json_loads (strip_markdown_fences text) with
    | none =>
      cases hs : re_bracket_span obrace cbrace (strip_markdown_fences text).data with
      | none => simp_all
      | some sub =>
        cases hj2 : json_loads (String.mk sub) with
        | none => simp_all
        | some v => cases v <;> simp_all
    | some v =>
      cases v with
      | obj fs => simp_all
      | _ =>
        cases hs : re_bracket_span obrace cbrace (strip_markdown_fences text).data with
        | none => simp_all
        | some sub =>
          cases hj2 : json_loads (String.mk sub) with
          | none => simp_all
          | some v2 => cases v2 <;> simp_all

/-! ### Data model: the relational schema of `database.py` -/

/-- Tuning knobs of `config.Settings` that the pipeline reads. -/
structure Settings where
  model_name : String
  batch_size : Nat
  max_tokens_per_image : Nat
  max_tokens_lens_discovery : Nat
  max_tokens_annotation_batch : Nat
  relevance_threshold : Rat
deriving DecidableEq

/-- The defaults of `config.Settings`. -/
def defaultSettings : Settings :=
  { model_name := "claude-opus-4-6", batch_size := 8, max_tokens_per_image := 600,
    max_tokens_lens_discovery := 8000, max_tokens_annotation_batch := 2000,
    relevance_threshold := (4 : Rat) / 10 }

/-- `archive_analyses.status` values. -/
inductive RunStatus where
  | pending | running | complete | failed
deriving DecidableEq

/-- `archive_analyses.phase` values (NULL modelled as `Option`). -/
inductive RunPhase where
  | batch_analysis | lens_discovery | done
deriving DecidableEq

/-- A row of `drawings`. -/
structure Drawing where
  id : Nat
  user_id : Nat
  filename : String
  filepath : String
  file_ext : Option String
  drawn_date : Option String
  analysis_text : Option String
  analysis_json : Option String
  analyzed_at : Option String
deriving DecidableEq

/-- A row of `archive_analyses`. -/
structure Run where
  id : Nat
  user_id : Nat
  status : RunStatus
  phase : Option RunPhase
  total_drawings : Nat
  analyzed_count : Nat
  error_message : Option String
  model_used : Option String
  completed_at : Option String
deriving DecidableEq

/-- A row of `lenses`. -/
structure Lens where
  id : Nat
  user_id : Nat
  archive_analysis_id : Option Nat
  name : String
  description : String
  sort_order : Nat
  raw_claude_output : Option String
deriving DecidableEq

/-- A row of `lens_drawing_links`. -/
structure Link where
  id : Nat
  lens_id : Nat
  drawing_id : Nat
  relevance_score : Rat
  annotation : Option String
  annotation_generated_at : Option String
deriving DecidableEq

/-- The SQLite database: one list per table plus AUTOINCREMENT counters. -/
structure DB where
  drawings : List Drawing
  runs : List Run
  lenses : List Lens
  links : List Link
  next_run_id : Nat
  next_lens_id : Nat
  next_link_id : Nat
deriving DecidableEq

/-- An empty database. -/
def dbEmpty : DB := ⟨[], [], [], [], 1, 1, 1⟩

/-! ### `routers/lenses.py`: `get_annotation_status` -/

/-- The `JOIN drawings d ON d.id = ldl.drawing_id` clause of the two
counting queries. -/
def linkJoinsDrawing (db : DB) (l : Link) : Bool :=
  db.drawings.any (fun d => d.id == l.drawing_id)

/-- The shared WHERE clause: `ldl.lens_id = ? AND ldl.relevance_score >= ?`
together with the drawings join. -/
def link_above (s : Settings) (db : DB) (lens_id : Nat) (l : Link) : Bool :=
  l.lens_id == lens_id && decide (s.relevance_threshold ≤ l.relevance_score)
    && linkJoinsDrawing db l

/-- The `total` count of `get_annotation_status`. -/
def annotation_status_total (s : Settings) (db : DB) (lens_id : Nat) : Nat :=
  (db.links.filter (link_above s db lens_id)).length

/-- The `ready` count of `get_annotation_status`: the same WHERE clause plus
`ldl.annotation IS NOT NULL`. -/
def annotation_status_ready (s : Settings) (db : DB) (lens_id : Nat) : Nat :=
  (db.links.filter (fun l => link_above s db lens_id l && ( Link.annotation l).isSome)).length

/-- The response model `AnnotationStatusResponse`. -/
structure AnnotationStatusResponse where
  lens_id : Nat
  total : Nat
  ready : Nat
  status : String
deriving DecidableEq

/-- The status if-chain at the end of `get_annotation_status`. -/
def annotation_status_label (total ready : Nat) : String :=
  if total = 0 then "empty"
  else if ready = 0 then "pending"
  else if ready < total then "generating"
  else "complete"

/-- `GET /lenses/:id/annotation_status`.  Note that `user_id` is accepted
but used by neither query. -/
def get_annotation_status (s : Settings) (db : DB) (lens_id user_id : Nat) :
    AnnotationStatusResponse :=
  let total := annotation_status_total s db lens_id
  let ready := annotation_status_ready s db lens_id
  { lens_id := lens_id, total := total, ready := ready,
    status := annotation_status_label total ready }

/-- Filtering by a conjunction keeps at most as many elements as filtering
by one conjunct. -/
theorem length_filter_and_le {α : Type} (p q : α → Bool) (l : List α) :
    (l.filter (fun a => p a && q a)).length ≤ (l.filter p).length := by
  induction l with
  | nil => simp
  | cons x xs ih =>
    by_cases hp : p x <;> by_cases hq : q x <;>
      simp [List.filter_cons, hp, hq] <;> omega

/-- C8: the annotation-status operation classifies its counts exactly as the
spec states: `empty` iff `total = 0`, `pending` iff `total > 0 ∧ ready = 0`,
`generating` iff `0 < ready < total`, `complete` iff `ready = total > 0`;
moreover the operation itself always satisfies `ready ≤ total`. -/
theorem claim_C8_annotation_status_classification :
    ∀ (s : Settings) (db : DB) (lens_id user_id : Nat),
      (get_annotation_status s db lens_id user_id).ready
          ≤ (get_annotation_status s db lens_id user_id).total ∧
      ((get_annotation_status s db lens_id user_id).status = "empty" ↔
        (get_annotation_status s db lens_id user_id).total = 0) ∧
      ((get_annotation_status s db lens_id user_id).status = "pending" ↔
        0 < (get_annotation_status s db lens_id user_id).total ∧
        (get_annotation_status s db lens_id user_id).ready = 0) ∧
      ((get_annotation_status s db lens_id user_id).status = "generating" ↔
        0 < (get_annotation_status s db lens_id user_id).ready ∧
        (get_annotation_status s db lens_id user_id).ready
          < (get_annotation_status s db lens_id user_id).total) ∧
      ((get_annotation_status s db lens_id user_id).status = "complete" ↔
        0 < (get_annotation_status s db lens_id user_id).total ∧
        (get_annotation_status s db lens_id user_id).ready
          = (get_annotation_status s db lens_id user_id).total) := by
  intro s db lens_id user_id
  have hle : annotation_status_ready s db lens_id ≤ annotation_status_total s db lens_id :=
    length_filter_and_le _ _ _
  simp only [get_annotation_status, annotation_status_label]
  refine ⟨hle, ?_⟩
  set t := annotation_status_total s db lens_id with ht
  set r := annotation_status_ready s db lens_id with hr
  split_ifs with h1 h2 h3 <;>
    refine ⟨?_, ?_, ?_, ?_⟩ <;> constructor <;> intro hh <;> simp_all <;> omega

/-- C10: `get_annotation_status` is oblivious to the `user_id` argument —
its two queries filter only on `lens_id` and the relevance threshold, so any
owner's lens status is observable under any other owner id. -/
theorem claim_C10_status_independent_of_owner :
    ∀ (s : Settings) (db : DB) (lens_id u1 u2 : Nat),
      get_annotation_status s db lens_id u1 = get_annotation_status s db lens_id u2 := by
  intro s db lens_id u1 u2
  rfl

/-! ### `routers/archive.py`: `trigger_analysis` -/

/-- Result of `POST /archive/analyze`: either the id of the new analysis or
a 409 conflict naming the already-running analysis. -/
inductive TriggerResult where
  | started (analysis_id : Nat)
  | conflict (running_id : Nat)
deriving DecidableEq

/-- The `running` check of `trigger_analysis`. -/
def find_running (db : DB) (user_id : Nat) : Option Run :=
  db.runs.find? (fun r => r.user_id == user_id && r.status == RunStatus.running)

/-- `trigger_analysis`: reject with a conflict when a run of this owner is
in `running` status, otherwise insert a new `pending` run row. -/
def trigger_analysis (s : Settings) (db : DB) (user_id : Nat) : TriggerResult × DB :=
  match find_running db user_id with
  | some r => (TriggerResult.conflict r.id, db)
  | none =>
    let rid := db.next_run_id
    (TriggerResult.started rid,
      { db with
          runs := db.runs ++ [{ id := rid, user_id := user_id, status := RunStatus.pending,
                                phase := none, total_drawings := 0, analyzed_count := 0,
                                error_message := none, model_used := some s.model_name,
                                completed_at := none }],
          next_run_id := rid + 1 })

/-- `SELECT COUNT(*) FROM drawings WHERE user_id = ?`. -/
def count_user_drawings (db : DB) (user_id : Nat) : Nat :=
  (db.drawings.filter (fun d => d.user_id == user_id)).length

/-- `UPDATE archive_analyses ... WHERE id = ?`. -/
def update_run (db : DB) (analysis_id : Nat) (f : Run → Run) : DB :=
  { db with runs := db.runs.map (fun r => if r.id = analysis_id then f r else r) }

/-- The opening block of `run_full_pipeline`: count the owner's drawings and
move the run to `running`/`batch_analysis` with `total_drawings` set.  Under
FastAPI's background-task scheduling this executes synchronously up to the
first inference-service await, i.e. before any later request is handled. -/
def pipeline_begin (db : DB) (user_id analysis_id : Nat) : DB :=
  let total := count_user_drawings db user_id
  update_run db analysis_id (fun r =>
    { r with status := RunStatus.running, phase := some RunPhase.batch_analysis,
             total_drawings := total })

/-- C1: at most one run per owner is `running` at a time.  While a run of
the owner is `running`, triggering is rejected with a conflict and creates
no run; and triggering twice in a row — the background pipeline of the
first trigger having started — yields one success and one conflict. -/
theorem claim_C1_single_running_run_per_owner :
    ∀ (s : Settings) (db : DB) (user_id : Nat),
      ((∃ r ∈ db.runs, r.user_id = user_id ∧ r.status = RunStatus.running) →
        (∃ rid, (trigger_analysis s db user_id).1 = TriggerResult.conflict rid) ∧
        (trigger_analysis s db user_id).2 = db) ∧
      ((∀ r ∈ db.runs, ¬(r.user_id = user_id ∧ r.status = RunStatus.running)) →
        (trigger_analysis s db user_id).1 = TriggerResult.started db.next_run_id ∧
        ∃ rid, (trigger_analysis s
            (pipeline_begin (trigger_analysis s db user_id).2 user_id db.next_run_id)
            user_id).1 = TriggerResult.conflict rid) := by
  intro s db user_id
  constructor
  · intro hex
    obtain ⟨r, hmem, hu, hs⟩ := hex
    have hsome : (find_running db user_id).isSome := by
      rw [find_running, List.find?_isSome]
      exact ⟨r, hmem, by simp [hu, hs]⟩
    cases hf : find_running db user_id with
    | none => rw [hf] at hsome; simp at hsome
    | some r' =>
      constructor
      · exact ⟨r'.id, by simp [trigger_analysis, hf]⟩
      · simp [trigger_analysis, hf]
  · intro hall
    have hnone : find_running db user_id = none := by
      rw [find_running, List.find?_eq_none]
      intro r hmem
      have := hall r hmem
      simp only [Bool.and_eq_true, beq_iff_eq] at *
      intro hc
      exact this ⟨hc.1, hc.2⟩
    constructor
    · simp [trigger_analysis, hnone]
    · -- after `pipeline_begin`, the freshly inserted run is `running`
      set db1 := (trigger_analysis s db user_id).2 with hdb1
      set db2 := pipeline_begin db1 user_id db.next_run_id with hdb2
      have hmem2 : ∃ r ∈ db2.runs, (r.user_id == user_id && r.status == RunStatus.running) = true := by
        refine ⟨{ id := db.next_run_id, user_id := user_id, status := RunStatus.running,
                  phase := some RunPhase.batch_analysis,
                  total_drawings := count_user_drawings db1 user_id, analyzed_count := 0,
                  error_message := none, model_used := some s.model_name,
                  completed_at := none }, ?_, by simp⟩
        rw [hdb2, pipeline_begin, update_run]
        simp only [List.mem_map]
        refine ⟨{ id := db.next_run_id, user_id := user_id, status := RunStatus.pending,
                  phase := none, total_drawings := 0, analyzed_count := 0,
                  error_message := none, model_used := some s.model_name,
                  completed_at := none }, ?_, by simp⟩
        rw [hdb1, trigger_analysis, hnone]
        simp
      have hsome2 : (find_running db2 user_id).isSome := by
        rw [find_running, List.find?_isSome]
        exact hmem2
      cases hf2 : find_running db2 user_id with
      | none => rw [hf2] at hsome2; simp at hsome2
      | some r' => exact ⟨r'.id, by simp [trigger_analysis, hf2]⟩

/-- Witness for C1 on the empty database: no run is running, so the first
trigger succeeds and — once its pipeline has started — a second trigger
conflicts. -/
theorem claim_C1_witness :
    (trigger_analysis defaultSettings dbEmpty 1).1
        = TriggerResult.started dbEmpty.next_run_id ∧
    ∃ rid, (trigger_analysis defaultSettings
        (pipeline_begin (trigger_analysis defaultSettings dbEmpty 1).2 1 dbEmpty.next_run_id)
        1).1 = TriggerResult.conflict rid :=
  (claim_C1_single_running_run_per_owner defaultSettings dbEmpty 1).2
    (by intro r hr; simp [dbEmpty] at hr)

/-! ### The pipeline environment: external effects as injected functions -/

/-- External collaborators of the analyzer: file reads, the PIL-based
resize step of `_prepare_image_bytes` (its failures on undecodable data are
caught by phase 1's per-item handler), the two inference-service calls of
`VisionService`, the prompt registry's `render`, and the clock
(`datetime('now')`).  Image bytes are modelled as opaque strings. -/
structure Env where
  read_file : String → Except String String
  resize_image : String → Except String String
  analyze_batch : List (String × String × String) → String → Nat → Except String String
  synthesize_text : String → Nat → Except String String
  render : String → List (String × String) → String
  now : String

/-- `_MAX_IMAGE_BYTES`. -/
def MAX_IMAGE_BYTES : Nat := 3700000

/-- `_prepare_image_bytes`: under the ceiling the payload passes through,
otherwise it is resized and re-encoded as JPEG. -/
def prepare_image_bytes (env : Env) (raw media_type : String) :
    Except String (String × String) :=
  if raw.length ≤ MAX_IMAGE_BYTES then Except.ok (raw, media_type)
  else
    match env.resize_image raw with
    | Except.ok out => Except.ok (out, "image/jpeg")
    | Except.error e => Except.error e

/-- Python `(file_ext or 'jpeg')`: `None` and the empty string both fall
back to `jpeg`. -/
def ext_or_jpeg : Option String → String
  | none => "jpeg"
  | some "" => "jpeg"
  | some e => e

/-- ASCII lower-casing of one character (`str.lower()` on ASCII input). -/
def asciiLowerChar (c : Char) : Char :=
  if 'A' ≤ c ∧ c ≤ 'Z' then Char.ofNat (c.toNat + 32) else c

/-- ASCII lower-casing of a string. -/
def asciiLower (s : String) : String := String.mk (s.data.map asciiLowerChar)

/-- The media-type computation of `_phase1_batch_analysis`. -/
def media_type_for (d : Drawing) : String :=
  let ext := asciiLower (ext_or_jpeg d.file_ext)
  if ext = "jpg" ∨ ext = "jpeg" then "image/jpeg" else "image/" ++ ext

/-- Load and condition one drawing's image; any failure is the per-item
exception that phase 1 catches. -/
def load_image (env : Env) (d : Drawing) : Except String (String × String × String) := do
  let raw ← env.read_file d.filepath
  let (bytes, mt) ← prepare_image_bytes env raw (media_type_for d)
  pure (bytes, mt, d.filename)

/-- The image-loading loop of one phase-1 batch: failed items are logged
and skipped. -/
def load_images (env : Env) (batch : List Drawing) : List (String × String × String) :=
  batch.filterMap (fun d =>
    match load_image env d with
    | Except.ok t => some t
    | Except.error _ => none)

/-! ### Ordering and batching -/

/-- `ORDER BY drawn_date ASC, filename ASC` with SQLite's NULLs-first rule. -/
def drawingLe (a b : Drawing) : Bool :=
  match a.drawn_date, b.drawn_date with
  | none, none => decide (a.filename ≤ b.filename)
  | none, some _ => true
  | some _, none => false
  | some x, some y => if x = y then decide (a.filename ≤ b.filename) else decide (x < y)

/-- Insertion into a sorted list. -/
def insertSorted {α : Type} (le : α → α → Bool) (x : α) : List α → List α
  | [] => [x]
  | y :: ys => if le x y then x :: y :: ys else y :: insertSorted le x ys

/-- Insertion sort, modelling the SQL ORDER BY. -/
def sortByLe {α : Type} (le : α → α → Bool) (l : List α) : List α :=
  l.foldr (insertSorted le) []

theorem mem_insertSorted {α : Type} (le : α → α → Bool) (x a : α) (l : List α) :
    a ∈ insertSorted le x l ↔ a = x ∨ a ∈ l := by
  induction l with
  | nil => simp [insertSorted]
  | cons y ys ih =>
    by_cases h : le x y = true <;> simp [insertSorted, h, ih] <;> tauto

theorem mem_sortByLe {α : Type} (le : α → α → Bool) (a : α) (l : List α) :
    a ∈ sortByLe le l ↔ a ∈ l := by
  induction l with
  | nil => simp [sortByLe]
  | cons y ys ih => simp [sortByLe, mem_insertSorted, ih]; rw [← sortByLe]; simp [ih]

theorem length_insertSorted {α : Type} (le : α → α → Bool) (x : α) (l : List α) :
    (insertSorted le x l).length = l.length + 1 := by
  induction l with
  | nil => simp [insertSorted]
  | cons y ys ih => by_cases h : le x y = true <;> simp [insertSorted, h, ih]

theorem length_sortByLe {α : Type} (le : α → α → Bool) (l : List α) :
    (sortByLe le l).length = l.length := by
  induction l with
  | nil => simp [sortByLe]
  | cons y ys ih =>
    show (insertSorted le y (sortByLe le ys)).length = ys.length + 1
    rw [length_insertSorted, ih]

/-- `drawings[batch_start : batch_start + batch_size]` slicing done by
Python's `range(0, len, step)` loop, for a positive batch size. -/
def chunksOf {α : Type} (n : Nat) : List α → List (List α)
  | [] => []
  | x :: xs => (x :: xs.take (n - 1)) :: chunksOf n (xs.drop (n - 1))
termination_by l => l.length
decreasing_by simp [List.length_drop]; omega

theorem chunksOf_flatten {α : Type} (n : Nat) (l : List α) :
    (chunksOf n l).flatten = l := by
  have H : ∀ (m : Nat) (l : List α), l.length ≤ m → (chunksOf n l).flatten = l := by
    intro m
    induction m with
    | zero =>
      intro l hl
      cases l with
      | nil => simp [chunksOf]
      | cons x xs => simp at hl
    | succ k ih =>
      intro l hl
      cases l with
      | nil => simp [chunksOf]
      | cons x xs =>
        rw [chunksOf]
        simp only [List.flatten_cons]
        rw [ih (xs.drop (n - 1)) (by simp at hl ⊢; omega)]
        simp [List.take_append_drop]
  exact H l.length l le_rfl

/-! ### Phase 1 — batch image analysis -/

/-- The phase-1 selection:
`WHERE user_id = ? AND analyzed_at IS NULL ORDER BY drawn_date, filename`. -/
def phase1_select (db : DB) (user_id : Nat) : List Drawing :=
  sortByLe drawingLe
    (db.drawings.filter (fun d => d.user_id == user_id && d.analyzed_at.isNone))

/-- Minimal JSON serializer modelling `json.dumps` (round-trip fidelity of
the stored audit strings is irrelevant to the claims; only nullity of the
stored columns is ever read back). -/
def dumpStringEsc (s : String) : String :=
  "\"" ++ String.mk (s.data.flatMap (fun c =>
    if c = '"' then ['\\', '"']
    else if c = '\\' then ['\\', '\\']
    else if c = '\n' then ['\\', 'n']
    else [c])) ++ "\""

mutual

/-- `json.dumps` on a decoded value. -/
def dumpJson : Json → String
  | Json.null => "null"
  | Json.bool true => "true"
  | Json.bool false => "false"
  | Json.num q => toString q
  | Json.str s => dumpStringEsc s
  | Json.arr es => "[" ++ dumpJsonList es ++ "]"
  | Json.obj fs => String.mk [obrace] ++ dumpJsonFields fs ++ String.mk [cbrace]

/-- Comma-joined serialization of array elements. -/
def dumpJsonList : List Json → String
  | [] => ""
  | [x] => dumpJson x
  | x :: xs => dumpJson x ++ ", " ++ dumpJsonList xs

/-- Comma-joined serialization of object fields. -/
def dumpJsonFields : List (String × Json) → String
  | [] => ""
  | [(k, v)] => dumpStringEsc k ++ ": " ++ dumpJson v
  | (k, v) :: xs => dumpStringEsc k ++ ": " ++ dumpJson v ++ ", " ++ dumpJsonFields xs

end

/-- Binding a decoded JSON value as an SQLite text parameter: `None` binds
NULL, strings bind themselves, numbers and booleans bind their SQLite
renderings, and lists/dicts raise (`sqlite3.InterfaceError`). -/
def bind_db_text : Json → Except String (Option String)
  | Json.null => Except.ok none
  | Json.str s => Except.ok (some s)
  | Json.num q => Except.ok (some (toString q))
  | Json.bool b => Except.ok (some (if b then "1" else "0"))
  | Json.arr _ => Except.error "cannot bind a list parameter"
  | Json.obj _ => Except.error "cannot bind a dict parameter"

/-- The dict comprehension
`filename_to_analysis = \x7bitem.get('filename', ''): item for item in analyses\x7d`:
non-object elements raise (`item.get` on a non-dict), unhashable keys raise,
and hashable non-string keys can never match a filename lookup so they are
dropped; later entries shadow earlier ones via `objGet`. -/
def build_filename_map : List Json → Except String (List (String × Json))
  | [] => Except.ok []
  | item :: rest =>
    match item with
    | Json.obj fields =>
      match (objGet fields "filename").getD (Json.str "") with
      | Json.str s =>
        match build_filename_map rest with
        | Except.ok m => Except.ok ((s, item) :: m)
        | Except.error e => Except.error e
      | Json.arr _ => Except.error "unhashable type in filename key"
      | Json.obj _ => Except.error "unhashable type in filename key"
      | _ =>
        build_filename_map rest
    | _ => Except.error "item.get called on a non-object response element"

/-- `UPDATE drawings ... WHERE id = ?`. -/
def update_drawing (db : DB) (drawing_id : Nat) (f : Drawing → Drawing) : DB :=
  { db with drawings := db.drawings.map (fun d => if d.id = drawing_id then f d else d) }

/-- The in-place effect of the phase-1 store loop on the row of drawing
`d`: with a matching response object the analysis columns and `analyzed_at`
are written, without one only `analyzed_at` is written. -/
def store_effect (env : Env) (fmap : List (String × Json)) (d : Drawing)
    (txt : Option String) (dd : Drawing) : Drawing :=
  match objGet fmap d.filename with
  | some item =>
    { dd with analysis_text := txt, analysis_json := some (dumpJson item),
              analyzed_at := some env.now }
  | none => { dd with analyzed_at := some env.now }

/-- The fields of a decoded JSON object (`[]` on non-objects; only applied
to objects here). -/
def obj_fields : Json → List (String × Json)
  | Json.obj fs => fs
  | _ => []

/-- One step of the phase-1 store loop: the columns written for one
drawing, or the binding error it raises. -/
def phase1_store_step (env : Env) (fmap : List (String × Json)) (d : Drawing)
    (db : DB) : Except String DB :=
  match objGet fmap d.filename with
  | some item =>
    match bind_db_text ((objGet (obj_fields item) "description").getD (Json.str "")) with
    | Except.ok txt => Except.ok (update_drawing db d.id (store_effect env fmap d txt))
    | Except.error e => Except.error e
  | none => Except.ok (update_drawing db d.id (store_effect env fmap d none))

/-- The per-drawing store loop of one phase-1 batch.  A binding error
raises mid-loop; rows already updated stay updated (and are committed by
the failure path of `run_full_pipeline`). -/
def phase1_store (env : Env) (fmap : List (String × Json)) :
    List Drawing → DB → DB × Option String
  | [], db => (db, none)
  | d :: rest, db =>
    match phase1_store_step env fmap d db with
    | Except.ok db1 => phase1_store env fmap rest db1
    | Except.error e => (db, some e)

/-- Outcome of one phase-1 batch. -/
inductive BatchOutcome where
  | skipped
  | stored (db : DB)
  | raised (db : DB) (msg : String)

/-- One iteration of the phase-1 batch loop: load images (skipping
unreadable items), skip the batch when nothing loaded or the inference call
failed, otherwise parse the response and store per drawing. -/
def phase1_process_batch (env : Env) (s : Settings) (prompt : String)
    (batch : List Drawing) (db : DB) : BatchOutcome :=
  let image_tuples := load_images env batch
  if image_tuples.isEmpty then BatchOutcome.skipped
  else
    let max_tokens := image_tuples.length * s.max_tokens_per_image + 500
    match env.analyze_batch image_tuples prompt max_tokens with
    | Except.error _ => BatchOutcome.skipped
    | Except.ok raw =>
      match build_filename_map (parse_json_list raw) with
      | Except.error e => BatchOutcome.raised db e
      | Except.ok fmap =>
        match phase1_store env fmap batch db with
        | (db', some e) => BatchOutcome.raised db' e
        | (db', none) => BatchOutcome.stored db'

/-- The batch loop of `_phase1_batch_analysis`.  Returns the final
database, the list of committed `analyzed_count` values in commit order,
and the first escaped Python-level error if any. -/
def phase1_loop (env : Env) (s : Settings) (analysis_id : Nat) (prompt : String) (n : Nat) :
    List (List Drawing) → Nat → DB → DB × List Nat × Option String
  | [], _, db => (db, [], none)
  | batch :: rest, batch_start, db =>
    match phase1_process_batch env s prompt batch db with
    | BatchOutcome.skipped =>
      phase1_loop env s analysis_id prompt n rest (batch_start + s.batch_size) db
    | BatchOutcome.raised db' e => (db', [], some e)
    | BatchOutcome.stored db2 =>
      let analyzed_so_far := min (batch_start + s.batch_size) n
      let res := phase1_loop env s analysis_id prompt n rest (batch_start + s.batch_size)
        (update_run db2 analysis_id (fun r => { r with analyzed_count := analyzed_so_far }))
      (res.1, analyzed_so_far :: res.2.1, res.2.2)

/-- `_phase1_batch_analysis`. -/
def phase1_batch_analysis (env : Env) (s : Settings) (user_id analysis_id : Nat)
    (db : DB) : DB × List Nat × Option String :=
  let drawings := phase1_select db user_id
  if drawings.isEmpty then (db, [], none)
  else
    let prompt := env.render "drawing_batch_analysis" []
    phase1_loop env s analysis_id prompt drawings.length
      (chunksOf s.batch_size drawings) 0 db

/-! ### Row-preservation lemmas for phase 1 -/

/-- The rows of `drawings` carrying a given primary key. -/
def rowsWithId (db : DB) (i : Nat) : List Drawing :=
  db.drawings.filter (fun d => d.id == i)

theorem store_effect_id (env : Env) (fmap : List (String × Json)) (d : Drawing)
    (txt : Option String) (dd : Drawing) :
    (store_effect env fmap d txt dd).id = dd.id := by
  unfold store_effect
  cases objGet fmap d.filename <;> rfl

theorem filter_map_update_ne {l : List Drawing} {j i : Nat} {f : Drawing → Drawing}
    (hf : ∀ d, (f d).id = d.id) (h : j ≠ i) :
    (l.map (fun d => if d.id = j then f d else d)).filter (fun d => d.id == i)
      = l.filter (fun d => d.id == i) := by
  induction l with
  | nil => rfl
  | cons d l ih =>
    simp only [List.map_cons, List.filter_cons]
    by_cases hd : d.id = j
    · have h1 : ((f d).id == i) = false := by simp [hf d, hd, h]
      have h2 : (d.id == i) = false := by simp [hd, h]
      simp [if_pos hd, h1, h2, ih]
    · simp [if_neg hd, ih]

theorem filter_map_update_eq {l : List Drawing} {j : Nat} {f : Drawing → Drawing}
    (hf : ∀ d, (f d).id = d.id) :
    (l.map (fun d => if d.id = j then f d else d)).filter (fun d => d.id == j)
      = (l.filter (fun d => d.id == j)).map f := by
  induction l with
  | nil => rfl
  | cons d l ih =>
    simp only [List.map_cons, List.filter_cons]
    by_cases hd : d.id = j
    · have h1 : ((f d).id == j) = true := by simp [hf d, hd]
      have h2 : (d.id == j) = true := by simp [hd]
      simp [if_pos hd, h1, h2, ih]
    · have h2 : (d.id == j) = false := by simp [hd]
      simp [if_neg hd, h2, ih]

theorem rowsWithId_update_ne (db : DB) (j i : Nat) (f : Drawing → Drawing)
    (hf : ∀ d, (f d).id = d.id) (h : j ≠ i) :
    rowsWithId (update_drawing db j f) i = rowsWithId db i := by
  unfold rowsWithId update_drawing
  exact filter_map_update_ne hf h

theorem rowsWithId_update_run (db : DB) (a : Nat) (f : Run → Run) (i : Nat) :
    rowsWithId (update_run db a f) i = rowsWithId db i := rfl

theorem phase1_store_step_ok (env : Env) (fmap : List (String × Json))
    (d : Drawing) (db db1 : DB)
    (h : phase1_store_step env fmap d db = Except.ok db1) :
    ∃ txt, db1 = update_drawing db d.id (store_effect env fmap d txt) := by
  unfold phase1_store_step at h
  cases hg : objGet fmap d.filename with
  | some item =>
    rw [hg] at h
    have h2 : (match bind_db_text ((objGet (obj_fields item) "description").getD (Json.str "")) with
      | Except.ok txt => Except.ok (update_drawing db d.id (store_effect env fmap d txt))
      | Except.error e => (Except.error e : Except String DB)) = Except.ok db1 := h
    cases hb : bind_db_text ((objGet (obj_fields item) "description").getD (Json.str "")) with
    | ok txt =>
      rw [hb] at h2
      have h3 : Except.ok (update_drawing db d.id (store_effect env fmap d txt))
          = (Except.ok db1 : Except String DB) := h2
      exact ⟨txt, (Except.ok.injEq _ _ ▸ h3).symm⟩
    | error e =>
      rw [hb] at h2
      exact absurd h2 (by simp)
  | none =>
    rw [hg] at h
    have h3 : Except.ok (update_drawing db d.id (store_effect env fmap d none))
        = (Except.ok db1 : Except String DB) := h
    exact ⟨none, (Except.ok.injEq _ _ ▸ h3).symm⟩

theorem phase1_store_preserves (env : Env) (fmap : List (String × Json)) :
    ∀ (batch : List Drawing) (db : DB) (i : Nat),
      (∀ b ∈ batch, b.id ≠ i) →
      rowsWithId (phase1_store env fmap batch db).1 i = rowsWithId db i := by
  intro batch
  induction batch with
  | nil => intro db i _; rfl
  | cons d rest ih =>
    intro db i h
    have hd : d.id ≠ i := h d (by simp)
    have hrest : ∀ b ∈ rest, b.id ≠ i := fun b hb => h b (List.mem_cons_of_mem _ hb)
    cases hstep : phase1_store_step env fmap d db with
    | ok db1 =>
      obtain ⟨txt, hdb1⟩ := phase1_store_step_ok env fmap d db db1 hstep
      have hred : phase1_store env fmap (d :: rest) db = phase1_store env fmap rest db1 := by
        rw [phase1_store, hstep]
      rw [hred, ih _ _ hrest, hdb1,
        rowsWithId_update_ne _ _ _ _ (store_effect_id env fmap d txt) hd]
    | error e =>
      have hred : phase1_store env fmap (d :: rest) db = (db, some e) := by
        rw [phase1_store, hstep]
      rw [hred]

theorem phase1_store_sets (env : Env) (fmap : List (String × Json)) :
    ∀ (batch : List Drawing) (db : DB) (d : Drawing),
      d ∈ batch →
      (batch.map (fun b => b.id)).Nodup →
      (phase1_store env fmap batch db).2 = none →
      ∃ txt, rowsWithId (phase1_store env fmap batch db).1 d.id
        = (rowsWithId db d.id).map (store_effect env fmap d txt) := by
  intro batch
  induction batch with
  | nil => intro db d hd; simp at hd
  | cons b rest ih =>
    intro db d hd hnodup herr
    simp only [List.map_cons, List.nodup_cons] at hnodup
    obtain ⟨hbid, hnodup2⟩ := hnodup
    cases hstep : phase1_store_step env fmap b db with
    | error e =>
      have hred : phase1_store env fmap (b :: rest) db = (db, some e) := by
        rw [phase1_store, hstep]
      rw [hred] at herr
      simp at herr
    | ok db1 =>
      have hred : phase1_store env fmap (b :: rest) db = phase1_store env fmap rest db1 := by
        rw [phase1_store, hstep]
      obtain ⟨txtb, hdb1⟩ := phase1_store_step_ok env fmap b db db1 hstep
      rw [hred] at herr ⊢
      rcases List.mem_cons.mp hd with hbd | hdrest
      · subst hbd
        have hrestne : ∀ x ∈ rest, x.id ≠ d.id := by
          intro x hx hc
          exact hbid (by rw [← hc]; exact List.mem_map_of_mem _ hx)
        refine ⟨txtb, ?_⟩
        rw [phase1_store_preserves env fmap rest _ _ hrestne, hdb1]
        unfold rowsWithId update_drawing
        exact filter_map_update_eq (store_effect_id env fmap d txtb)
      · have hbne : b.id ≠ d.id := fun hc =>
          hbid (by rw [hc]; exact List.mem_map_of_mem _ hdrest)
        obtain ⟨txt2, hrw⟩ := ih db1 d hdrest hnodup2 herr
        refine ⟨txt2, ?_⟩
        rw [hrw, hdb1, rowsWithId_update_ne _ _ _ _ (store_effect_id env fmap b txtb) hbne]

theorem phase1_process_batch_preserves (env : Env) (s : Settings) (prompt : String)
    (batch : List Drawing) (db db2 : DB) (i : Nat)
    (h : ∀ b ∈ batch, b.id ≠ i)
    (hout : phase1_process_batch env s prompt batch db = BatchOutcome.stored db2 ∨
            ∃ e, phase1_process_batch env s prompt batch db = BatchOutcome.raised db2 e) :
    rowsWithId db2 i = rowsWithId db i := by
  by_cases hempty : (load_images env batch).isEmpty
  · have key : phase1_process_batch env s prompt batch db = BatchOutcome.skipped := by
      simp [phase1_process_batch, hempty]
    rw [key] at hout
    rcases hout with hc | ⟨e, hc⟩ <;> simp at hc
  · cases hcall : env.analyze_batch (load_images env batch) prompt
        ((load_images env batch).length * s.max_tokens_per_image + 500) with
    | error e =>
      have key : phase1_process_batch env s prompt batch db = BatchOutcome.skipped := by
        simp [phase1_process_batch, hempty, hcall]
      rw [key] at hout
      rcases hout with hc | ⟨e2, hc⟩ <;> simp at hc
    | ok raw =>
      cases hbuild : build_filename_map (parse_json_list raw) with
      | error e =>
        have key : phase1_process_batch env s prompt batch db
            = BatchOutcome.raised db e := by
          simp [phase1_process_batch, hempty, hcall, hbuild]
        rw [key] at hout
        rcases hout with hc | ⟨e2, hc⟩ <;> simp at hc
        · rw [← hc.1]
      | ok fmap =>
        rcases hstore : phase1_store env fmap batch db with ⟨db3, err3⟩
        have hpres : rowsWithId db3 i = rowsWithId db i := by
          have := phase1_store_preserves env fmap batch db i h
          rw [hstore] at this
          exact this
        cases err3 with
        | none =>
          have key : phase1_process_batch env s prompt batch db
              = BatchOutcome.stored db3 := by
            simp [phase1_process_batch, hempty, hcall, hbuild, hstore]
          rw [key] at hout
          rcases hout with hc | ⟨e2, hc⟩ <;> simp at hc
          · rw [← hc]; exact hpres
        | some e3 =>
          have key : phase1_process_batch env s prompt batch db
              = BatchOutcome.raised db3 e3 := by
            simp [phase1_process_batch, hempty, hcall, hbuild, hstore]
          rw [key] at hout
          rcases hout with hc | ⟨e2, hc⟩ <;> simp at hc
          · rw [← hc.1]; exact hpres

theorem phase1_loop_preserves (env : Env) (s : Settings) (analysis_id : Nat)
    (prompt : String) (n : Nat) :
    ∀ (chunks : List (List Drawing)) (batch_start : Nat) (db : DB) (i : Nat),
      (∀ c ∈ chunks, ∀ b ∈ c, b.id ≠ i) →
      rowsWithId (phase1_loop env s analysis_id prompt n chunks batch_start db).1 i
        = rowsWithId db i := by
  intro chunks
  induction chunks with
  | nil => intro bs db i _; rfl
  | cons batch rest ih =>
    intro bs db i h
    have hbatch : ∀ b ∈ batch, b.id ≠ i := h batch (by simp)
    have hrest : ∀ c ∈ rest, ∀ b ∈ c, b.id ≠ i := fun c hc => h c (List.mem_cons_of_mem _ hc)
    cases hout : phase1_process_batch env s prompt batch db with
    | skipped =>
      have hred : phase1_loop env s analysis_id prompt n (batch :: rest) bs db
          = phase1_loop env s analysis_id prompt n rest (bs + s.batch_size) db := by
        rw [phase1_loop, hout]
      rw [hred, ih _ _ _ hrest]
    | raised db2 e =>
      have hred : phase1_loop env s analysis_id prompt n (batch :: rest) bs db
          = (db2, [], some e) := by
        rw [phase1_loop, hout]
      rw [hred]
      exact phase1_process_batch_preserves env s prompt batch db db2 i hbatch (Or.inr ⟨e, hout⟩)
    | stored db2 =>
      have hred : phase1_loop env s analysis_id prompt n (batch :: rest) bs db
          = ((phase1_loop env s analysis_id prompt n rest (bs + s.batch_size)
                (update_run db2 analysis_id
                  (fun r => { r with analyzed_count := min (bs + s.batch_size) n }))).1,
             min (bs + s.batch_size) n
               :: (phase1_loop env s analysis_id prompt n rest (bs + s.batch_size)
                (update_run db2 analysis_id
                  (fun r => { r with analyzed_count := min (bs + s.batch_size) n }))).2.1,
             (phase1_loop env s analysis_id prompt n rest (bs + s.batch_size)
                (update_run db2 analysis_id
                  (fun r => { r with analyzed_count := min (bs + s.batch_size) n }))).2.2) := by
        rw [phase1_loop, hout]
      rw [hred]
      show rowsWithId (phase1_loop env s analysis_id prompt n rest (bs + s.batch_size)
          (update_run db2 analysis_id
            (fun r => { r with analyzed_count := min (bs + s.batch_size) n }))).1 i
        = rowsWithId db i
      rw [ih _ _ _ hrest, rowsWithId_update_run]
      exact phase1_process_batch_preserves env s prompt batch db db2 i hbatch (Or.inl hout)

theorem length_filter_split {α : Type} (p q : α → Bool) (l : List α) :
    (l.filter (fun a => p a && !q a)).length + (l.filter (fun a => p a && q a)).length
      = (l.filter p).length := by
  induction l with
  | nil => rfl
  | cons x xs ih =>
    by_cases hp : p x <;> by_cases hq : q x <;>
      simp [List.filter_cons, hp, hq] <;> omega

/-- C2: phase 1 is globally idempotent.  A drawing with non-null
`analyzed_at` is never selected by `phase1_select` and its row is untouched
by a whole phase-1 run; and the selection size is exactly the owner's item
count minus the owner's already-analyzed count (hence a fresh run analyzes
at most `n - k` items). -/
theorem claim_C2_phase1_global_idempotence :
    ∀ (env : Env) (s : Settings) (db : DB) (user_id analysis_id : Nat),
      (db.drawings.map (fun d => d.id)).Nodup →
      (∀ d ∈ db.drawings, d.analyzed_at ≠ none →
        d ∉ phase1_select db user_id ∧
        d ∈ (phase1_batch_analysis env s user_id analysis_id db).1.drawings) ∧
      (phase1_select db user_id).length
          + (db.drawings.filter (fun d => d.user_id == user_id && d.analyzed_at.isSome)).length
        = (db.drawings.filter (fun d => d.user_id == user_id)).length := by
  intro env s db user_id analysis_id hnodup
  constructor
  · intro d hd hana
    have hnotsel : d ∉ phase1_select db user_id := by
      intro hmem
      rw [phase1_select, mem_sortByLe] at hmem
      have hpred := List.of_mem_filter hmem
      simp only [Bool.and_eq_true, Option.isNone_iff_eq_none] at hpred
      exact hana hpred.2
    refine ⟨hnotsel, ?_⟩
    by_cases hsel : (phase1_select db user_id).isEmpty
    · have key : (phase1_batch_analysis env s user_id analysis_id db).1 = db := by
        simp [phase1_batch_analysis, hsel]
      rw [key]; exact hd
    · have key : phase1_batch_analysis env s user_id analysis_id db
          = phase1_loop env s analysis_id (env.render "drawing_batch_analysis" [])
              (phase1_select db user_id).length
              (chunksOf s.batch_size (phase1_select db user_id)) 0 db := by
        simp [phase1_batch_analysis, hsel]
      have hids : ∀ c ∈ chunksOf s.batch_size (phase1_select db user_id),
          ∀ b ∈ c, b.id ≠ d.id := by
        intro c hc b hb hbid
        have hbsel : b ∈ phase1_select db user_id := by
          rw [← chunksOf_flatten s.batch_size (phase1_select db user_id)]
          exact List.mem_flatten.mpr ⟨c, hc, hb⟩
        rw [phase1_select, mem_sortByLe] at hbsel
        have hbdb : b ∈ db.drawings := List.mem_of_mem_filter hbsel
        have hbpred := List.of_mem_filter hbsel
        simp only [Bool.and_eq_true, Option.isNone_iff_eq_none] at hbpred
        have hbd : b = d := List.inj_on_of_nodup_map hnodup hbdb hd hbid
        rw [hbd] at hbpred
        exact hana hbpred.2
      have hrows := phase1_loop_preserves env s analysis_id
        (env.render "drawing_batch_analysis" [])
        (phase1_select db user_id).length
        (chunksOf s.batch_size (phase1_select db user_id)) 0 db d.id hids
      rw [key]
      have hdin : d ∈ rowsWithId db d.id := List.mem_filter.mpr ⟨hd, by simp⟩
      rw [← hrows] at hdin
      exact List.mem_of_mem_filter hdin
  · rw [phase1_select, length_sortByLe]
    have hcong : db.drawings.filter (fun d => d.user_id == user_id && d.analyzed_at.isNone)
        = db.drawings.filter (fun d => d.user_id == user_id && !d.analyzed_at.isSome) := by
      apply List.filter_congr
      intro a _
      cases a.analyzed_at <;> simp
    rw [hcong]
    exact length_filter_split _ _ _

/-- A reusable concrete environment whose inference service is down and
whose files are unreadable. -/
def envDown : Env :=
  { read_file := fun _ => Except.error "unreadable",
    resize_image := fun b => Except.ok b,
    analyze_batch := fun _ _ _ => Except.error "service unavailable",
    synthesize_text := fun _ _ => Except.error "service unavailable",
    render := fun _ _ => "prompt",
    now := "2026-10-12" }

/-- An already-analyzed drawing of owner 1. -/
def drawTwoA : Drawing :=
  { id := 1, user_id := 1, filename := "a.jpg", filepath := "/img/a.jpg",
    file_ext := some "jpg", drawn_date := some "2020-01-01",
    analysis_text := some "a house", analysis_json := none,
    analyzed_at := some "2026-01-01" }

/-- A not-yet-analyzed drawing of owner 1. -/
def drawTwoB : Drawing :=
  { id := 2, user_id := 1, filename := "b.jpg", filepath := "/img/b.jpg",
    file_ext := some "jpg", drawn_date := some "2021-01-01",
    analysis_text := none, analysis_json := none, analyzed_at := none }

/-- A concrete database: owner 1 with one analyzed and one unanalyzed
drawing and a pending run. -/
def dbTwo : DB :=
  { drawings := [drawTwoA, drawTwoB],
    runs := [{ id := 1, user_id := 1, status := RunStatus.pending, phase := none,
               total_drawings := 0, analyzed_count := 0, error_message := none,
               model_used := none, completed_at := none }],
    lenses := [], links := [], next_run_id := 2, next_lens_id := 1, next_link_id := 1 }

/-- Witness for C2 at a concrete database with one analyzed and one
unanalyzed drawing: the analyzed drawing is skipped and untouched, and the
selection size is the owner count minus the analyzed count. -/
theorem claim_C2_witness :
    (drawTwoA ∉ phase1_select dbTwo 1 ∧
      drawTwoA ∈ (phase1_batch_analysis envDown defaultSettings 1 1 dbTwo).1.drawings) ∧
    (phase1_select dbTwo 1).length
        + (dbTwo.drawings.filter (fun d => d.user_id == 1 && d.analyzed_at.isSome)).length
      = (dbTwo.drawings.filter (fun d => d.user_id == 1)).length :=
  ⟨(claim_C2_phase1_global_idempotence envDown defaultSettings dbTwo 1 1 (by decide)).1
      drawTwoA (by decide) (by decide),
    (claim_C2_phase1_global_idempotence envDown defaultSettings dbTwo 1 1 (by decide)).2⟩

theorem except_bind_error {α β : Type} (e : String) (f : α → Except String β) :
    (Except.error e >>= f) = Except.error e := rfl

theorem except_bind_ok {α β : Type} (a : α) (f : α → Except String β) :
    (Except.ok a >>= f) = f a := rfl

theorem objGet_some_mem {m : List (String × Json)} {k : String} {v : Json}
    (h : objGet m k = some v) : k ∈ m.map (fun kv => kv.1) := by
  unfold objGet at h
  cases hf : m.reverse.find? (fun kv => kv.1 = k) with
  | none => rw [hf] at h; simp at h
  | some kv =>
    have hmem : kv ∈ m.reverse := List.mem_of_find?_eq_some hf
    have hpred := List.find?_some hf
    simp only [decide_eq_true_eq] at hpred
    rw [List.mem_reverse] at hmem
    exact List.mem_map.mpr ⟨kv, hmem, hpred⟩

theorem load_images_mem {env : Env} {batch : List Drawing} {t : String × String × String}
    (h : t ∈ load_images env batch) :
    ∃ b ∈ batch, load_image env b = Except.ok t := by
  unfold load_images at h
  rw [List.mem_filterMap] at h
  obtain ⟨b, hb, hmatch⟩ := h
  cases hload : load_image env b with
  | ok t2 =>
    rw [hload] at hmatch
    simp only [Option.some.injEq] at hmatch
    exact ⟨b, hb, by rw [hload, hmatch]⟩
  | error e => rw [hload] at hmatch; simp at hmatch

theorem load_image_label {env : Env} {b : Drawing} {t : String × String × String}
    (h : load_image env b = Except.ok t) : t.2.2 = b.filename := by
  unfold load_image at h
  cases hr : env.read_file b.filepath with
  | error e => rw [hr, except_bind_error] at h; simp at h
  | ok raw =>
    rw [hr, except_bind_ok] at h
    cases hp : prepare_image_bytes env raw (media_type_for b) with
    | error e => rw [hp, except_bind_error] at h; simp at h
    | ok p =>
      obtain ⟨bytes, mt⟩ := p
      rw [hp] at h
      have h2 : Except.ok (bytes, mt, b.filename) = (Except.ok t : Except String _) := h
      have h3 := (Except.ok.injEq _ _ ▸ h2)
      rw [← h3]

theorem load_image_read_error {env : Env} {d : Drawing} {e : String}
    (h : env.read_file d.filepath = Except.error e) :
    load_image env d = Except.error e := by
  unfold load_image
  rw [h, except_bind_error]

theorem store_effect_none {env : Env} {fmap : List (String × Json)} {d : Drawing}
    (txt : Option String) (dd : Drawing) (h : objGet fmap d.filename = none) :
    store_effect env fmap d txt dd = { dd with analyzed_at := some env.now } := by
  unfold store_effect
  rw [h]

/-- C9 (implicit behaviour): when at least one image of a phase-1 group
loads and the group's inference call succeeds, the store loop marks every
drawing of the group `analyzed_at`, including one whose file could not be
read; that drawing keeps its previous `analysis_text` (the response only
mentions sent filenames) and is excluded from any later phase-1 selection. -/
theorem claim_C9_unreadable_files_marked_analyzed :
    ∀ (env : Env) (s : Settings) (prompt raw : String) (fmap : List (String × Json))
      (batch : List Drawing) (db db2 : DB) (d : Drawing) (user_id : Nat),
      load_images env batch ≠ [] →
      env.analyze_batch (load_images env batch) prompt
          ((load_images env batch).length * s.max_tokens_per_image + 500) = Except.ok raw →
      build_filename_map (parse_json_list raw) = Except.ok fmap →
      phase1_store env fmap batch db = (db2, none) →
      d ∈ batch →
      d ∈ db.drawings →
      (batch.map (fun b => b.id)).Nodup →
      (batch.map (fun b => b.filename)).Nodup →
      (∃ e, env.read_file d.filepath = Except.error e) →
      (∀ k ∈ fmap.map (fun kv => kv.1), k ∈ (load_images env batch).map (fun t => t.2.2)) →
      phase1_process_batch env s prompt batch db = BatchOutcome.stored db2 ∧
      ∃ d2 ∈ db2.drawings, d2.id = d.id ∧ d2.analyzed_at = some env.now ∧
        d2.analysis_text = d.analysis_text ∧ d2 ∉ phase1_select db2 user_id := by
  intro env s prompt raw fmap batch db db2 d user_id
  intro hne hcall hbuild hstore hdmem hddb hids hfns hread hkeys
  obtain ⟨er, hreaderr⟩ := hread
  -- the unreadable drawing's filename is absent from the response map
  have hno : objGet fmap d.filename = none := by
    cases hg : objGet fmap d.filename with
    | none => rfl
    | some v =>
      exfalso
      have hkey := objGet_some_mem hg
      have hlab := hkeys _ hkey
      obtain ⟨t, htmem, htlab⟩ := List.mem_map.mp hlab
      obtain ⟨b, hbmem, hbok⟩ := load_images_mem htmem
      have hbfn : b.filename = d.filename := by rw [← load_image_label hbok, htlab]
      have hbd : b = d := List.inj_on_of_nodup_map hfns hbmem hdmem hbfn
      rw [hbd, load_image_read_error hreaderr] at hbok
      simp at hbok
  constructor
  · have hempty : (load_images env batch).isEmpty = false := by
      cases hl : load_images env batch with
      | nil => exact absurd hl hne
      | cons x xs => rfl
    simp [phase1_process_batch, hempty, hcall, hbuild, hstore]
  · have hsets := phase1_store_sets env fmap batch db d hdmem hids (by rw [hstore])
    rw [hstore] at hsets
    obtain ⟨txt, hrw⟩ := hsets
    have hdin : d ∈ rowsWithId db d.id := List.mem_filter.mpr ⟨hddb, by simp⟩
    have hd2in : store_effect env fmap d txt d ∈ rowsWithId db2 d.id := by
      rw [hrw]
      exact List.mem_map_of_mem _ hdin
    rw [store_effect_none txt d hno] at hd2in
    refine ⟨{ d with analyzed_at := some env.now }, List.mem_of_mem_filter hd2in,
      rfl, rfl, rfl, ?_⟩
    intro hmem
    rw [phase1_select, mem_sortByLe] at hmem
    have hpred := List.of_mem_filter hmem
    simp at hpred

/-- A readable drawing for the C9 scenario. -/
def drawA : Drawing :=
  { id := 1, user_id := 1, filename := "a.jpg", filepath := "/img/a.jpg",
    file_ext := some "jpg", drawn_date := some "2020-01-01",
    analysis_text := none, analysis_json := none, analyzed_at := none }

/-- An unreadable drawing for the C9 scenario. -/
def drawB : Drawing :=
  { id := 2, user_id := 1, filename := "b.jpg", filepath := "/img/b.jpg",
    file_ext := some "jpg", drawn_date := some "2021-01-01",
    analysis_text := none, analysis_json := none, analyzed_at := none }

/-- The phase-1 group of the C9 scenario. -/
def batchC9 : List Drawing := [drawA, drawB]

/-- Database for the C9 scenario. -/
def dbC9 : DB :=
  { drawings := [drawA, drawB],
    runs := [{ id := 1, user_id := 1, status := RunStatus.running,
               phase := some RunPhase.batch_analysis, total_drawings := 2,
               analyzed_count := 0, error_message := none, model_used := none,
               completed_at := none }],
    lenses := [], links := [], next_run_id := 2, next_lens_id := 1, next_link_id := 1 }

/-- The inference response of the C9 scenario: it describes only the image
that was actually sent. -/
def rawC9 : String := "[\x7b\"filename\":\"a.jpg\",\"description\":\"a tree\"\x7d]"

/-- The parsed filename map of the C9 scenario. -/
def fmapC9 : List (String × Json) :=
  [("a.jpg", Json.obj [("filename", Json.str "a.jpg"), ("description", Json.str "a tree")])]

/-- Environment for the C9 scenario: only `/img/a.jpg` is readable and the
inference service answers `rawC9`. -/
def envC9 : Env :=
  { read_file := fun p => if p = "/img/a.jpg" then Except.ok "IMGBYTES" else Except.error "missing",
    resize_image := fun b => Except.ok b,
    analyze_batch := fun _ _ _ => Except.ok rawC9,
    synthesize_text := fun _ _ => Except.error "down",
    render := fun _ _ => "p",
    now := "2026-10-12" }

/-- Witness for C9: in the concrete scenario the batch is stored, and the
unreadable drawing is marked analyzed with no analysis text and drops out of
any future phase-1 selection. -/
theorem claim_C9_witness :
    phase1_process_batch envC9 defaultSettings "p" batchC9 dbC9
        = BatchOutcome.stored (phase1_store envC9 fmapC9 batchC9 dbC9).1 ∧
    ∃ d2 ∈ (phase1_store envC9 fmapC9 batchC9 dbC9).1.drawings, d2.id = drawB.id ∧
      d2.analyzed_at = some envC9.now ∧ d2.analysis_text = drawB.analysis_text ∧
      d2 ∉ phase1_select (phase1_store envC9 fmapC9 batchC9 dbC9).1 1 :=
  claim_C9_unreadable_files_marked_analyzed envC9 defaultSettings "p" rawC9 fmapC9
    batchC9 dbC9 (phase1_store envC9 fmapC9 batchC9 dbC9).1 drawB 1
    (by decide) rfl rfl rfl (by decide) (by decide) (by decide) (by decide)
    ⟨"missing", rfl⟩ (by decide)

/-! ### Phase 2 — lens discovery -/

/-- Python truthiness of a decoded JSON value (`if not x`). -/
def jsonTruthy : Json → Bool
  | Json.null => false
  | Json.bool b => b
  | Json.num q => decide (q ≠ 0)
  | Json.str s => decide (s ≠ "")
  | Json.arr l => !l.isEmpty
  | Json.obj f => !f.isEmpty

/-- Python `float(score)` on a decoded JSON value: numbers pass through,
booleans convert, numeric strings parse, everything else raises. -/
def pyFloat : Json → Except String Rat
  | Json.num q => Except.ok q
  | Json.bool b => Except.ok (if b then 1 else 0)
  | Json.str s =>
    match parseNumber (pyStrip s.data) with
    | some (q, []) => Except.ok q
    | _ => Except.error "could not convert string to float"
  | _ => Except.error "float() argument must be a string or a real number"

/-- `INSERT OR IGNORE INTO lenses` under `UNIQUE(user_id, name)`. -/
def insert_or_ignore_lens (db : DB) (user_id analysis_id : Nat)
    (name description : String) (sort_order : Nat) (rawout : String) : DB :=
  if db.lenses.any (fun l => l.user_id == user_id && l.name == name) then db
  else
    { db with
        lenses := db.lenses ++
          [{ id := db.next_lens_id, user_id := user_id,
             archive_analysis_id := some analysis_id, name := name,
             description := description, sort_order := sort_order,
             raw_claude_output := some rawout }],
        next_lens_id := db.next_lens_id + 1 }

/-- `SELECT id FROM lenses WHERE user_id = ? AND name = ?` (first row). -/
def find_lens_id (db : DB) (user_id : Nat) (name : String) : Option Nat :=
  (db.lenses.find? (fun l => l.user_id == user_id && l.name == name)).map (fun l => l.id)

/-- A fresh link row. -/
def mkLink (i lens_id drawing_id : Nat) (score : Rat) : Link :=
  { id := i, lens_id := lens_id, drawing_id := drawing_id,
    relevance_score := score, annotation := none, annotation_generated_at := none }

/-- `INSERT OR IGNORE INTO lens_drawing_links` under
`UNIQUE(lens_id, drawing_id)`. -/
def insert_or_ignore_link (db : DB) (lens_id drawing_id : Nat) (score : Rat) : DB :=
  if db.links.any (fun l => l.lens_id == lens_id && l.drawing_id == drawing_id) then db
  else
    { db with
        links := db.links ++ [mkLink db.next_link_id lens_id drawing_id score],
        next_link_id := db.next_link_id + 1 }

/-- Lookup in the `filename → drawing id` dict built from the selected rows. -/
def assocGetNat (m : List (String × Nat)) (k : String) : Option Nat :=
  (m.reverse.find? (fun kv => kv.1 = k)).map (fun kv => kv.2)

/-- The `for filename, score in drawing_relevance.items()` loop: unknown
filenames are silently skipped, scores pass through `float()`, links are
insert-or-ignore. -/
def store_relevance (lens_id : Nat) (filename_to_id : List (String × Nat)) :
    List (String × Json) → DB → DB × Option String
  | [], db => (db, none)
  | (fn, score) :: rest, db =>
    match assocGetNat filename_to_id fn with
    | some drawing_id =>
      match pyFloat score with
      | Except.ok q =>
        store_relevance lens_id filename_to_id rest
          (insert_or_ignore_link db lens_id drawing_id q)
      | Except.error e => (db, some e)
    | none => store_relevance lens_id filename_to_id rest db

/-- `lens_data.get('name', f'Lens N')`.  A `str` name passes through and an
absent key takes the default; a non-string name is modelled as a pipeline
error (the source would accept some non-string values with inessential
differences, none of which the claims depend on). -/
def lens_name_of (lens_data : Json) (sort_order : Nat) : Except String String :=
  match lens_data with
  | Json.obj fields =>
    match objGet fields "name" with
    | none => Except.ok ("Lens " ++ toString (sort_order + 1))
    | some (Json.str s) => Except.ok s
    | some _ => Except.error "unsupported lens name type"
  | _ => Except.error "lens_data.get called on a non-object"

/-- `lens_data.get('description', '')` bound as a text parameter.  A JSON
null description is modelled as an error (the source's `INSERT OR IGNORE`
would silently drop the NOT NULL row and the subsequent id lookup would
raise). -/
def lens_description_of (lens_data : Json) : Except String String :=
  match lens_data with
  | Json.obj fields =>
    match bind_db_text ((objGet fields "description").getD (Json.str "")) with
    | Except.ok (some s) => Except.ok s
    | Except.ok none => Except.error "NOT NULL constraint failed"
    | Except.error e => Except.error e
  | _ => Except.error "lens_data.get called on a non-object"

/-- `lens_data.get('drawing_relevance', \x7b\x7d)`; `.items()` on a
non-dict raises. -/
def lens_relevance_of (lens_data : Json) : Except String (List (String × Json)) :=
  match lens_data with
  | Json.obj fields =>
    match (objGet fields "drawing_relevance").getD (Json.obj []) with
    | Json.obj rel => Except.ok rel
    | _ => Except.error "drawing_relevance is not a dict"
  | _ => Except.error "lens_data.get called on a non-object"

/-- One descriptor of the phase-2 loop: insert-or-ignore the lens, re-read
the existing row's id, store all relevance links, commit. -/
def phase2_store_lens (user_id analysis_id : Nat)
    (filename_to_id : List (String × Nat)) (sort_order : Nat) (lens_data : Json)
    (db : DB) : DB × Option String :=
  match lens_name_of lens_data sort_order with
  | Except.error e => (db, some e)
  | Except.ok name =>
    match lens_description_of lens_data with
    | Except.error e => (db, some e)
    | Except.ok description =>
      let db1 := insert_or_ignore_lens db user_id analysis_id name description
        sort_order (dumpJson lens_data)
      match find_lens_id db1 user_id name with
      | none => (db1, some "lens lookup failed")
      | some lens_id =>
        match lens_relevance_of lens_data with
        | Except.error e => (db1, some e)
        | Except.ok rel => store_relevance lens_id filename_to_id rel db1

/-- The `for sort_order, lens_data in enumerate(lenses_data)` loop. -/
def phase2_lens_loop (user_id analysis_id : Nat)
    (filename_to_id : List (String × Nat)) :
    List Json → Nat → DB → DB × Option String
  | [], _, db => (db, none)
  | lens_data :: rest, sort_order, db =>
    match phase2_store_lens user_id analysis_id filename_to_id sort_order lens_data db with
    | (db1, some e) => (db1, some e)
    | (db1, none) =>
      phase2_lens_loop user_id analysis_id filename_to_id rest (sort_order + 1) db1

/-- The phase-2 selection:
`WHERE user_id = ? AND analysis_text IS NOT NULL ORDER BY drawn_date, filename`. -/
def phase2_select (db : DB) (user_id : Nat) : List Drawing :=
  sortByLe drawingLe
    (db.drawings.filter (fun d => d.user_id == user_id && d.analysis_text.isSome))

/-- The concatenated summaries block. -/
def summaries_block (rows : List Drawing) : String :=
  rows.foldl (fun acc r =>
    acc ++ "\n[" ++ (r.drawn_date.getD "unknown date") ++ "] " ++ r.filename
      ++ ": " ++ (r.analysis_text.getD "") ++ "\n") ""

/-- The year-range computation (empty-string dates are falsy in Python and
excluded). -/
def year_range_of (rows : List Drawing) : String :=
  let dates := rows.filterMap (fun r =>
    match r.drawn_date with
    | some s => if s = "" then none else some s
    | none => none)
  match dates with
  | [] => "unknown period"
  | d0 :: ds =>
    String.mk (d0.data.take 4) ++ "–" ++ String.mk (((d0 :: ds).getLastD d0).data.take 4)

/-- `_phase2_lens_discovery`.  An inference-service failure is re-raised as
`RuntimeError` (and so escapes to the run boundary); a truthy non-list
`lenses` value is modelled as the error the iteration would raise. -/
def phase2_lens_discovery (env : Env) (s : Settings) (user_id analysis_id : Nat)
    (db : DB) : DB × Option String :=
  let rows := phase2_select db user_id
  if rows.isEmpty then (db, none)
  else
    let prompt := env.render "lens_discovery"
      [("year_range", year_range_of rows), ("total_count", toString rows.length),
       ("all_summaries", summaries_block rows)]
    match env.synthesize_text prompt s.max_tokens_lens_discovery with
    | Except.error e => (db, some ("Lens discovery API call failed: " ++ e))
    | Except.ok raw =>
      let result := parse_json_dict raw
      let lenses_data := (objGet result "lenses").getD (Json.arr [])
      if jsonTruthy lenses_data = false then (db, none)
      else
        match lenses_data with
        | Json.arr ls =>
          phase2_lens_loop user_id analysis_id
            (rows.map (fun r => (r.filename, r.id))) ls 0 db
        | _ => (db, some "lenses value is not iterable as descriptors")

/-! ### C5/C6 — invariants of the phase-2 writes -/

/-- The stored relevance scores of one (lens, item) pair. -/
def linkScores (db : DB) (lens_id drawing_id : Nat) : List Rat :=
  (db.links.filter (fun l => l.lens_id == lens_id && l.drawing_id == drawing_id)).map
    (fun l => l.relevance_score)

theorem linkScores_nonempty_exists {db : DB} {lid did : Nat}
    (h : linkScores db lid did ≠ []) :
    ∃ l ∈ db.links, (l.lens_id == lid && l.drawing_id == did) = true := by
  unfold linkScores at h
  rcases hf : db.links.filter (fun l => l.lens_id == lid && l.drawing_id == did) with
    _ | ⟨x, xs⟩
  · rw [hf] at h; simp at h
  · have hx : x ∈ db.links.filter (fun l => l.lens_id == lid && l.drawing_id == did) := by
      rw [hf]; simp
    exact ⟨x, (List.mem_filter.mp hx).1, (List.mem_filter.mp hx).2⟩

theorem linkScores_insert_or_ignore (db : DB) (lid did lid2 did2 : Nat) (q : Rat)
    (h : linkScores db lid did ≠ []) :
    linkScores (insert_or_ignore_link db lid2 did2 q) lid did = linkScores db lid did := by
  unfold insert_or_ignore_link
  by_cases hex : db.links.any (fun l => l.lens_id == lid2 && l.drawing_id == did2)
  · rw [if_pos hex]
  · rw [if_neg hex]
    obtain ⟨x, hxmem, hxpred⟩ := linkScores_nonempty_exists h
    have hpair : ¬(lid2 = lid ∧ did2 = did) := by
      rintro ⟨rfl, rfl⟩
      exact hex (List.any_eq_true.mpr ⟨x, hxmem, hxpred⟩)
    unfold linkScores
    simp only [List.filter_append, List.map_append, List.filter_cons, List.filter_nil]
    by_cases h1 : lid2 = lid
    · by_cases h2 : did2 = did
      · exact absurd ⟨h1, h2⟩ hpair
      · simp [mkLink, h1, h2]
    · simp [mkLink, h1]

theorem linkScores_insert_lens (db : DB) (u a : Nat) (nm ds : String) (so : Nat)
    (rawout : String) (lid did : Nat) :
    linkScores (insert_or_ignore_lens db u a nm ds so rawout) lid did
      = linkScores db lid did := by
  unfold insert_or_ignore_lens
  by_cases hex : db.lenses.any (fun l => l.user_id == u && l.name == nm) <;>
    simp [hex, linkScores]

theorem store_relevance_preserves (lid2 : Nat) (f : List (String × Nat)) :
    ∀ (rel : List (String × Json)) (db : DB) (lid did : Nat),
      linkScores db lid did ≠ [] →
      linkScores (store_relevance lid2 f rel db).1 lid did = linkScores db lid did := by
  intro rel
  induction rel with
  | nil => intro db lid did _; rfl
  | cons kv rest ih =>
    obtain ⟨fn, score⟩ := kv
    intro db lid did h
    cases hget : assocGetNat f fn with
    | none =>
      have hred : store_relevance lid2 f ((fn, score) :: rest) db
          = store_relevance lid2 f rest db := by
        rw [store_relevance, hget]
      rw [hred, ih _ _ _ h]
    | some did2 =>
      cases hfl : pyFloat score with
      | ok q =>
        have hred : store_relevance lid2 f ((fn, score) :: rest) db
            = store_relevance lid2 f rest (insert_or_ignore_link db lid2 did2 q) := by
          rw [store_relevance, hget, hfl]
        have hins := linkScores_insert_or_ignore db lid did lid2 did2 q h
        rw [hred, ih _ _ _ (by rw [hins]; exact h), hins]
      | error e =>
        have hred : store_relevance lid2 f ((fn, score) :: rest) db = (db, some e) := by
          rw [store_relevance, hget, hfl]
        rw [hred]

theorem phase2_store_lens_preserves (user aid : Nat) (f : List (String × Nat))
    (so : Nat) (ld : Json) (db : DB) (lid did : Nat)
    (h : linkScores db lid did ≠ []) :
    linkScores (phase2_store_lens user aid f so ld db).1 lid did
      = linkScores db lid did := by
  cases hn : lens_name_of ld so with
  | error e =>
    have hred : phase2_store_lens user aid f so ld db = (db, some e) := by
      simp [phase2_store_lens, hn]
    rw [hred]
  | ok name =>
    cases hd : lens_description_of ld with
    | error e =>
      have hred : phase2_store_lens user aid f so ld db = (db, some e) := by
        simp [phase2_store_lens, hn, hd]
      rw [hred]
    | ok desc =>
      have hlinks1 := linkScores_insert_lens db user aid name desc so (dumpJson ld) lid did
      cases hf : find_lens_id (insert_or_ignore_lens db user aid name desc so (dumpJson ld))
          user name with
      | none =>
        have hred : phase2_store_lens user aid f so ld db
            = (insert_or_ignore_lens db user aid name desc so (dumpJson ld),
               some "lens lookup failed") := by
          simp [phase2_store_lens, hn, hd, hf]
        rw [hred]
        exact hlinks1
      | some lid3 =>
        cases hr : lens_relevance_of ld with
        | error e =>
          have hred : phase2_store_lens user aid f so ld db
              = (insert_or_ignore_lens db user aid name desc so (dumpJson ld), some e) := by
            simp [phase2_store_lens, hn, hd, hf, hr]
          rw [hred]
          exact hlinks1
        | ok rel =>
          have hred : phase2_store_lens user aid f so ld db
              = store_relevance lid3 f rel
                  (insert_or_ignore_lens db user aid name desc so (dumpJson ld)) := by
            simp [phase2_store_lens, hn, hd, hf, hr]
          rw [hred, store_relevance_preserves _ _ _ _ _ _ (by rw [hlinks1]; exact h), hlinks1]

theorem phase2_lens_loop_preserves (user aid : Nat) (f : List (String × Nat)) :
    ∀ (ls : List Json) (so : Nat) (db : DB) (lid did : Nat),
      linkScores db lid did ≠ [] →
      linkScores (phase2_lens_loop user aid f ls so db).1 lid did
        = linkScores db lid did := by
  intro ls
  induction ls with
  | nil => intro so db lid did _; rfl
  | cons ld rest ih =>
    intro so db lid did h
    rcases hsl : phase2_store_lens user aid f so ld db with ⟨db1, err1⟩
    have hpres : linkScores db1 lid did = linkScores db lid did := by
      have := phase2_store_lens_preserves user aid f so ld db lid did h
      rw [hsl] at this
      exact this
    cases err1 with
    | some e =>
      have hred : phase2_lens_loop user aid f (ld :: rest) so db = (db1, some e) := by
        rw [phase2_lens_loop, hsl]
      rw [hred]
      exact hpres
    | none =>
      have hred : phase2_lens_loop user aid f (ld :: rest) so db
          = phase2_lens_loop user aid f rest (so + 1) db1 := by
        rw [phase2_lens_loop, hsl]
      rw [hred, ih _ _ _ _ (by rw [hpres]; exact h), hpres]

theorem phase2_preserves_linkScores (env : Env) (s : Settings)
    (user_id analysis_id : Nat) (db : DB) (lid did : Nat)
    (h : linkScores db lid did ≠ []) :
    linkScores (phase2_lens_discovery env s user_id analysis_id db).1 lid did
      = linkScores db lid did := by
  by_cases hrows : (phase2_select db user_id).isEmpty
  · have hred : phase2_lens_discovery env s user_id analysis_id db = (db, none) := by
      simp [phase2_lens_discovery, hrows]
    rw [hred]
  · cases hsyn : env.synthesize_text
        (env.render "lens_discovery"
          [("year_range", year_range_of (phase2_select db user_id)),
           ("total_count", toString (phase2_select db user_id).length),
           ("all_summaries", summaries_block (phase2_select db user_id))])
        s.max_tokens_lens_discovery with
    | error e =>
      have hred : phase2_lens_discovery env s user_id analysis_id db
          = (db, some ("Lens discovery API call failed: " ++ e)) := by
        simp [phase2_lens_discovery, hrows, hsyn]
      rw [hred]
    | ok raw =>
      by_cases htr : jsonTruthy ((objGet (parse_json_dict raw) "lenses").getD (Json.arr []))
          = false
      · have hred : phase2_lens_discovery env s user_id analysis_id db = (db, none) := by
          simp [phase2_lens_discovery, hrows, hsyn, htr]
        rw [hred]
      · cases hld : (objGet (parse_json_dict raw) "lenses").getD (Json.arr []) with
        | arr ls =>
          rw [hld] at htr
          have hred : phase2_lens_discovery env s user_id analysis_id db
              = phase2_lens_loop user_id analysis_id
                  ((phase2_select db user_id).map (fun r => (r.filename, r.id))) ls 0 db := by
            simp [phase2_lens_discovery, hrows, hsyn, hld, htr]
          rw [hred, phase2_lens_loop_preserves _ _ _ _ _ _ _ _ h]
        | null =>
          rw [hld] at htr; simp [jsonTruthy] at htr
        | bool b =>
          rw [hld] at htr
          have hred : phase2_lens_discovery env s user_id analysis_id db
              = (db, some "lenses value is not iterable as descriptors") := by
            simp [phase2_lens_discovery, hrows, hsyn, hld, htr]
          rw [hred]
        | num q =>
          rw [hld] at htr
          have hred : phase2_lens_discovery env s user_id analysis_id db
              = (db, some "lenses value is not iterable as descriptors") := by
            simp [phase2_lens_discovery, hrows, hsyn, hld, htr]
          rw [hred]
        | str st =>
          rw [hld] at htr
          have hred : phase2_lens_discovery env s user_id analysis_id db
              = (db, some "lenses value is not iterable as descriptors") := by
            simp [phase2_lens_discovery, hrows, hsyn, hld, htr]
          rw [hred]
        | obj fs =>
          rw [hld] at htr
          have hred : phase2_lens_discovery env s user_id analysis_id db
              = (db, some "lenses value is not iterable as descriptors") := by
            simp [phase2_lens_discovery, hrows, hsyn, hld, htr]
          rw [hred]

/-- C5: once a (lens, item) link row exists with some score, a later
lens-discovery pass leaves the stored score unchanged and the pair still has
exactly one row (first write wins). -/
theorem claim_C5_link_score_immutable :
    ∀ (env : Env) (s : Settings) (user_id analysis_id lens_id drawing_id : Nat)
      (db : DB) (q : Rat),
      linkScores db lens_id drawing_id = [q] →
      linkScores (phase2_lens_discovery env s user_id analysis_id db).1
        lens_id drawing_id = [q] := by
  intro env s user_id analysis_id lens_id drawing_id db q h
  rw [phase2_preserves_linkScores env s user_id analysis_id db lens_id drawing_id
    (by rw [h]; simp), h]

/-- The lens rows of one owner carrying one name. -/
def lensRowsFor (db : DB) (user_id : Nat) (name : String) : List Lens :=
  db.lenses.filter (fun l => l.user_id == user_id && l.name == name)

theorem lensRowsFor_nonempty_exists {db : DB} {u : Nat} {nm : String}
    (h : lensRowsFor db u nm ≠ []) :
    ∃ l ∈ db.lenses, (l.user_id == u && l.name == nm) = true := by
  unfold lensRowsFor at h
  rcases hf : db.lenses.filter (fun l => l.user_id == u && l.name == nm) with _ | ⟨x, xs⟩
  · rw [hf] at h; simp at h
  · have hx : x ∈ db.lenses.filter (fun l => l.user_id == u && l.name == nm) := by
      rw [hf]; simp
    exact ⟨x, (List.mem_filter.mp hx).1, (List.mem_filter.mp hx).2⟩

theorem lensRowsFor_insert (db : DB) (u2 a : Nat) (n2 ds : String) (so : Nat)
    (rawout : String) (u : Nat) (nm : String) (h : lensRowsFor db u nm ≠ []) :
    lensRowsFor (insert_or_ignore_lens db u2 a n2 ds so rawout) u nm
      = lensRowsFor db u nm := by
  unfold insert_or_ignore_lens
  by_cases hex : db.lenses.any (fun l => l.user_id == u2 && l.name == n2)
  · rw [if_pos hex]
  · rw [if_neg hex]
    obtain ⟨x, hxmem, hxpred⟩ := lensRowsFor_nonempty_exists h
    have hpair : ¬(u2 = u ∧ n2 = nm) := by
      rintro ⟨rfl, rfl⟩
      exact hex (List.any_eq_true.mpr ⟨x, hxmem, hxpred⟩)
    unfold lensRowsFor
    simp only [List.filter_append, List.filter_cons, List.filter_nil]
    by_cases h1 : u2 = u
    · by_cases h2 : n2 = nm
      · exact absurd ⟨h1, h2⟩ hpair
      · simp [h1, h2]
    · simp [h1]

theorem insert_link_lenses (db : DB) (lid did : Nat) (q : Rat) :
    (insert_or_ignore_link db lid did q).lenses = db.lenses := by
  unfold insert_or_ignore_link
  by_cases h : db.links.any (fun l => l.lens_id == lid && l.drawing_id == did) <;> simp [h]

theorem store_relevance_lenses (lid : Nat) (f : List (String × Nat)) :
    ∀ (rel : List (String × Json)) (db : DB),
      (store_relevance lid f rel db).1.lenses = db.lenses := by
  intro rel
  induction rel with
  | nil => intro db; rfl
  | cons kv rest ih =>
    obtain ⟨fn, score⟩ := kv
    intro db
    cases hget : assocGetNat f fn with
    | none =>
      have hred : store_relevance lid f ((fn, score) :: rest) db
          = store_relevance lid f rest db := by
        rw [store_relevance, hget]
      rw [hred, ih]
    | some did2 =>
      cases hfl : pyFloat score with
      | ok q =>
        have hred : store_relevance lid f ((fn, score) :: rest) db
            = store_relevance lid f rest (insert_or_ignore_link db lid did2 q) := by
          rw [store_relevance, hget, hfl]
        rw [hred, ih, insert_link_lenses]
      | error e =>
        have hred : store_relevance lid f ((fn, score) :: rest) db = (db, some e) := by
          rw [store_relevance, hget, hfl]
        rw [hred]

theorem find?_of_filter_singleton {α : Type} (p : α → Bool) :
    ∀ (l : List α) (x : α), l.filter p = [x] → l.find? p = some x := by
  intro l
  induction l with
  | nil => intro x h; simp at h
  | cons a as ih =>
    intro x h
    by_cases hp : p a
    · rw [List.filter_cons_of_pos hp] at h
      simp only [List.cons.injEq] at h
      rw [List.find?_cons_of_pos _ hp, h.1]
    · rw [List.filter_cons_of_neg hp] at h
      rw [List.find?_cons_of_neg _ hp]
      exact ih x h

theorem store_relevance_links (lid : Nat) (f : List (String × Nat)) :
    ∀ (rel : List (String × Json)) (db : DB),
      ∃ added, (store_relevance lid f rel db).1.links = db.links ++ added ∧
        ∀ lk ∈ added, lk.lens_id = lid := by
  intro rel
  induction rel with
  | nil => intro db; exact ⟨[], by simp [store_relevance], by simp⟩
  | cons kv rest ih =>
    obtain ⟨fn, score⟩ := kv
    intro db
    cases hget : assocGetNat f fn with
    | none =>
      have hred : store_relevance lid f ((fn, score) :: rest) db
          = store_relevance lid f rest db := by
        rw [store_relevance, hget]
      obtain ⟨added, h1, h2⟩ := ih db
      exact ⟨added, by rw [hred]; exact h1, h2⟩
    | some did2 =>
      cases hfl : pyFloat score with
      | error e =>
        have hred : store_relevance lid f ((fn, score) :: rest) db = (db, some e) := by
          rw [store_relevance, hget, hfl]
        exact ⟨[], by rw [hred]; simp, by simp⟩
      | ok q =>
        have hred : store_relevance lid f ((fn, score) :: rest) db
            = store_relevance lid f rest (insert_or_ignore_link db lid did2 q) := by
          rw [store_relevance, hget, hfl]
        by_cases hex : db.links.any (fun l => l.lens_id == lid && l.drawing_id == did2)
        · have hinseq : insert_or_ignore_link db lid did2 q = db := by
            unfold insert_or_ignore_link; rw [if_pos hex]
          obtain ⟨added, h1, h2⟩ := ih db
          refine ⟨added, ?_, h2⟩
          rw [hred, hinseq]
          exact h1
        · have hinseq : (insert_or_ignore_link db lid did2 q).links
              = db.links ++ [mkLink db.next_link_id lid did2 q] := by
            unfold insert_or_ignore_link; rw [if_neg hex]
          obtain ⟨added2, h1, h2⟩ := ih (insert_or_ignore_link db lid did2 q)
          refine ⟨mkLink db.next_link_id lid did2 q :: added2, ?_, ?_⟩
          · rw [hred, h1, hinseq]
            simp
          · intro lk hlk
            rcases List.mem_cons.mp hlk with hh | ht
            · rw [hh]; rfl
            · exact h2 lk ht

theorem phase2_store_lens_preserves_lensRows (user aid : Nat)
    (f : List (String × Nat)) (so : Nat) (ld : Json) (db : DB) (u : Nat) (nm : String)
    (h : lensRowsFor db u nm ≠ []) :
    lensRowsFor (phase2_store_lens user aid f so ld db).1 u nm
      = lensRowsFor db u nm := by
  cases hn : lens_name_of ld so with
  | error e =>
    have hred : phase2_store_lens user aid f so ld db = (db, some e) := by
      simp [phase2_store_lens, hn]
    rw [hred]
  | ok name =>
    cases hd : lens_description_of ld with
    | error e =>
      have hred : phase2_store_lens user aid f so ld db = (db, some e) := by
        simp [phase2_store_lens, hn, hd]
      rw [hred]
    | ok desc =>
      have hlens1 := lensRowsFor_insert db user aid name desc so (dumpJson ld) u nm h
      cases hf : find_lens_id (insert_or_ignore_lens db user aid name desc so (dumpJson ld))
          user name with
      | none =>
        have hred : phase2_store_lens user aid f so ld db
            = (insert_or_ignore_lens db user aid name desc so (dumpJson ld),
               some "lens lookup failed") := by
          simp [phase2_store_lens, hn, hd, hf]
        rw [hred]
        exact hlens1
      | some lid3 =>
        cases hr : lens_relevance_of ld with
        | error e =>
          have hred : phase2_store_lens user aid f so ld db
              = (insert_or_ignore_lens db user aid name desc so (dumpJson ld), some e) := by
            simp [phase2_store_lens, hn, hd, hf, hr]
          rw [hred]
          exact hlens1
        | ok rel =>
          have hred : phase2_store_lens user aid f so ld db
              = store_relevance lid3 f rel
                  (insert_or_ignore_lens db user aid name desc so (dumpJson ld)) := by
            simp [phase2_store_lens, hn, hd, hf, hr]
          rw [hred]
          unfold lensRowsFor
          rw [store_relevance_lenses]
          exact hlens1

theorem phase2_lens_loop_preserves_lensRows (user aid : Nat)
    (f : List (String × Nat)) :
    ∀ (ls : List Json) (so : Nat) (db : DB) (u : Nat) (nm : String),
      lensRowsFor db u nm ≠ [] →
      lensRowsFor (phase2_lens_loop user aid f ls so db).1 u nm
        = lensRowsFor db u nm := by
  intro ls
  induction ls with
  | nil => intro so db u nm _; rfl
  | cons ld rest ih =>
    intro so db u nm h
    rcases hsl : phase2_store_lens user aid f so ld db with ⟨db1, err1⟩
    have hpres : lensRowsFor db1 u nm = lensRowsFor db u nm := by
      have := phase2_store_lens_preserves_lensRows user aid f so ld db u nm h
      rw [hsl] at this
      exact this
    cases err1 with
    | some e =>
      have hred : phase2_lens_loop user aid f (ld :: rest) so db = (db1, some e) := by
        rw [phase2_lens_loop, hsl]
      rw [hred]
      exact hpres
    | none =>
      have hred : phase2_lens_loop user aid f (ld :: rest) so db
          = phase2_lens_loop user aid f rest (so + 1) db1 := by
        rw [phase2_lens_loop, hsl]
      rw [hred, ih _ _ _ _ (by rw [hpres]; exact h), hpres]

theorem phase2_top_cases (env : Env) (s : Settings) (user_id analysis_id : Nat)
    (db : DB) :
    phase2_lens_discovery env s user_id analysis_id db = (db, none) ∨
    (∃ e, phase2_lens_discovery env s user_id analysis_id db = (db, some e)) ∨
    (∃ ls, phase2_lens_discovery env s user_id analysis_id db
        = phase2_lens_loop user_id analysis_id
            ((phase2_select db user_id).map (fun r => (r.filename, r.id))) ls 0 db) := by
  by_cases hrows : (phase2_select db user_id).isEmpty
  · exact Or.inl (by simp [phase2_lens_discovery, hrows])
  · cases hsyn : env.synthesize_text
        (env.render "lens_discovery"
          [("year_range", year_range_of (phase2_select db user_id)),
           ("total_count", toString (phase2_select db user_id).length),
           ("all_summaries", summaries_block (phase2_select db user_id))])
        s.max_tokens_lens_discovery with
    | error e =>
      exact Or.inr (Or.inl ⟨"Lens discovery API call failed: " ++ e,
        by simp [phase2_lens_discovery, hrows, hsyn]⟩)
    | ok raw =>
      by_cases htr : jsonTruthy ((objGet (parse_json_dict raw) "lenses").getD (Json.arr []))
          = false
      · exact Or.inl (by simp [phase2_lens_discovery, hrows, hsyn, htr])
      · cases hld : (objGet (parse_json_dict raw) "lenses").getD (Json.arr []) with
        | arr ls =>
          rw [hld] at htr
          exact Or.inr (Or.inr ⟨ls, by simp [phase2_lens_discovery, hrows, hsyn, hld, htr]⟩)
        | null => rw [hld] at htr; simp [jsonTruthy] at htr
        | bool b =>
          rw [hld] at htr
          exact Or.inr (Or.inl ⟨"lenses value is not iterable as descriptors",
            by simp [phase2_lens_discovery, hrows, hsyn, hld, htr]⟩)
        | num q =>
          rw [hld] at htr
          exact Or.inr (Or.inl ⟨"lenses value is not iterable as descriptors",
            by simp [phase2_lens_discovery, hrows, hsyn, hld, htr]⟩)
        | str st =>
          rw [hld] at htr
          exact Or.inr (Or.inl ⟨"lenses value is not iterable as descriptors",
            by simp [phase2_lens_discovery, hrows, hsyn, hld, htr]⟩)
        | obj fs =>
          rw [hld] at htr
          exact Or.inr (Or.inl ⟨"lenses value is not iterable as descriptors",
            by simp [phase2_lens_discovery, hrows, hsyn, hld, htr]⟩)

/-- C6: lens names are unique per owner.  With exactly one lens row `L`
named `nm` for the owner: a phase-2 descriptor naming `nm` leaves exactly
that row in place and attaches all links it creates to `L.id`; and a whole
later discovery pass still leaves exactly the one row `L` named `nm`. -/
theorem claim_C6_lens_names_unique_per_owner :
    ∀ (env : Env) (s : Settings) (user_id analysis_id : Nat) (db : DB)
      (L : Lens) (nm : String),
      lensRowsFor db user_id nm = [L] →
      (∀ (filename_to_id : List (String × Nat)) (sort_order : Nat)
          (fields : List (String × Json)),
        objGet fields "name" = some (Json.str nm) →
        lensRowsFor (phase2_store_lens user_id analysis_id filename_to_id sort_order
            (Json.obj fields) db).1 user_id nm = [L] ∧
        ∃ added, (phase2_store_lens user_id analysis_id filename_to_id sort_order
            (Json.obj fields) db).1.links = db.links ++ added ∧
          ∀ lk ∈ added, lk.lens_id = L.id) ∧
      lensRowsFor (phase2_lens_discovery env s user_id analysis_id db).1 user_id nm
        = [L] := by
  intro env s user_id analysis_id db L nm hrows
  have hne : lensRowsFor db user_id nm ≠ [] := by rw [hrows]; simp
  constructor
  · intro f so fields hname
    have hn : lens_name_of (Json.obj fields) so = Except.ok nm := by
      simp [lens_name_of, hname]
    have hLmem : L ∈ db.lenses ∧ (L.user_id == user_id && L.name == nm) = true := by
      have : L ∈ lensRowsFor db user_id nm := by rw [hrows]; simp
      exact ⟨(List.mem_filter.mp this).1, (List.mem_filter.mp this).2⟩
    cases hd : lens_description_of (Json.obj fields) with
    | error e =>
      have hred : phase2_store_lens user_id analysis_id f so (Json.obj fields) db
          = (db, some e) := by
        simp [phase2_store_lens, hn, hd]
      rw [hred]
      exact ⟨hrows, [], by simp, by simp⟩
    | ok desc =>
      have hins_eq : insert_or_ignore_lens db user_id analysis_id nm desc so
          (dumpJson (Json.obj fields)) = db := by
        unfold insert_or_ignore_lens
        rw [if_pos (List.any_eq_true.mpr ⟨L, hLmem.1, hLmem.2⟩)]
      have hfind : find_lens_id db user_id nm = some L.id := by
        unfold find_lens_id
        rw [find?_of_filter_singleton _ _ _ hrows]
        rfl
      cases hr : lens_relevance_of (Json.obj fields) with
      | error e =>
        have hred : phase2_store_lens user_id analysis_id f so (Json.obj fields) db
            = (db, some e) := by
          simp [phase2_store_lens, hn, hd, hins_eq, hfind, hr]
        rw [hred]
        exact ⟨hrows, [], by simp, by simp⟩
      | ok rel =>
        have hred : phase2_store_lens user_id analysis_id f so (Json.obj fields) db
            = store_relevance L.id f rel db := by
          simp [phase2_store_lens, hn, hd, hins_eq, hfind, hr]
        rw [hred]
        refine ⟨?_, store_relevance_links L.id f rel db⟩
        unfold lensRowsFor
        rw [store_relevance_lenses]
        exact hrows
  · rcases phase2_top_cases env s user_id analysis_id db with hcase | ⟨e, hcase⟩ | ⟨ls, hcase⟩
    · rw [hcase]; exact hrows
    · rw [hcase]; exact hrows
    · rw [hcase, phase2_lens_loop_preserves_lensRows _ _ _ _ _ _ _ _ hne]
      exact hrows

/-- The existing lens of the C5/C6 scenario. -/
def lensGeo : Lens :=
  { id := 1, user_id := 1, archive_analysis_id := some 1,
    name := "Geographic journey", description := "x", sort_order := 0,
    raw_claude_output := none }

/-- Database of the C5/C6 scenario: one analyzed drawing, one lens and one
(lens, drawing) link stored with score 0.7 by an earlier run. -/
def dbC5 : DB :=
  { drawings :=
      [{ id := 1, user_id := 1, filename := "a.jpg", filepath := "/img/a.jpg",
         file_ext := some "jpg", drawn_date := some "2020-01-01",
         analysis_text := some "a tree", analysis_json := none,
         analyzed_at := some "2026-01-01" }],
    runs := [{ id := 2, user_id := 1, status := RunStatus.running,
               phase := some RunPhase.lens_discovery, total_drawings := 1,
               analyzed_count := 1, error_message := none, model_used := none,
               completed_at := none }],
    lenses := [lensGeo],
    links := [{ id := 1, lens_id := 1, drawing_id := 1,
                relevance_score := (7 : Rat) / 10, annotation := none,
                annotation_generated_at := none }],
    next_run_id := 3, next_lens_id := 2, next_link_id := 2 }

/-- A later discovery response naming the same lens again and proposing a
different score (0.9) for the already-linked pair. -/
def rawC5 : String :=
  "\x7b\"lenses\":[\x7b\"name\":\"Geographic journey\",\"description\":\"x\",\"drawing_relevance\":\x7b\"a.jpg\":0.9\x7d\x7d]\x7d"

/-- Environment of the C5/C6 scenario. -/
def envC5 : Env :=
  { read_file := fun _ => Except.error "not used",
    resize_image := fun b => Except.ok b,
    analyze_batch := fun _ _ _ => Except.error "not used",
    synthesize_text := fun _ _ => Except.ok rawC5,
    render := fun _ _ => "p",
    now := "2026-10-12" }

/-- Witness for C5: a re-discovery proposing 0.9 leaves the stored score at
0.7, with exactly one row for the pair. -/
theorem claim_C5_witness :
    linkScores (phase2_lens_discovery envC5 defaultSettings 1 2 dbC5).1 1 1
      = [(7 : Rat) / 10] :=
  claim_C5_link_score_immutable envC5 defaultSettings 1 2 1 1 dbC5 ((7 : Rat) / 10) (by rfl)

/-- Witness for C6: after the re-discovery that names "Geographic journey"
again, exactly the original lens row exists for the owner. -/
theorem claim_C6_witness :
    lensRowsFor (phase2_lens_discovery envC5 defaultSettings 1 2 dbC5).1 1
      "Geographic journey" = [lensGeo] :=
  (claim_C6_lens_names_unique_per_owner envC5 defaultSettings 1 2 dbC5 lensGeo
    "Geographic journey" (by rfl)).2

/-! ### The run boundary: `run_full_pipeline`, and phase 3 -/

/-- The status of one analysis row. -/
def run_status (db : DB) (analysis_id : Nat) : Option RunStatus :=
  (db.runs.find? (fun r => r.id == analysis_id)).map (fun r => r.status)

/-- The `analyzed_count` of one analysis row (0 when absent). -/
def run_ac (db : DB) (analysis_id : Nat) : Nat :=
  ((db.runs.find? (fun r => r.id == analysis_id)).map (fun r => r.analyzed_count)).getD 0

/-- The `total_drawings` of one analysis row (0 when absent). -/
def run_total (db : DB) (analysis_id : Nat) : Nat :=
  ((db.runs.find? (fun r => r.id == analysis_id)).map (fun r => r.total_drawings)).getD 0

/-- Python slicing `str(e)[:500]`. -/
def pyTake (n : Nat) (s : String) : String := String.mk (s.data.take n)

/-- The failure path of `run_full_pipeline`: status `failed` with the
truncated message. -/
def fail_run (db : DB) (analysis_id : Nat) (e : String) : DB :=
  update_run db analysis_id (fun r =>
    { r with status := RunStatus.failed, error_message := some (pyTake 500 e) })

/-- `run_full_pipeline`: begin, phase 1, phase switch, phase 2, terminal
update; any escaped error is converted into a `failed` status.  The second
component is the sequence of committed `analyzed_count` values, one entry
per `db.commit()` on the run's connection. -/
def run_full_pipeline (env : Env) (s : Settings) (user_id analysis_id : Nat)
    (db : DB) : DB × List Nat :=
  let db1 := pipeline_begin db user_id analysis_id
  let t1 := run_ac db1 analysis_id
  match phase1_batch_analysis env s user_id analysis_id db1 with
  | (db2, trace, some e) =>
    (fail_run db2 analysis_id e, t1 :: trace ++ [run_ac (fail_run db2 analysis_id e) analysis_id])
  | (db2, trace, none) =>
    let db3 := update_run db2 analysis_id
      (fun r => { r with phase := some RunPhase.lens_discovery })
    match phase2_lens_discovery env s user_id analysis_id db3 with
    | (db4, some e) =>
      (fail_run db4 analysis_id e,
       t1 :: trace ++ [run_ac db3 analysis_id, run_ac (fail_run db4 analysis_id e) analysis_id])
    | (db4, none) =>
      let db5 := update_run db4 analysis_id
        (fun r => { r with
            status := RunStatus.complete, phase := some RunPhase.done,
            completed_at := some env.now })
      (db5, t1 :: trace ++ [run_ac db3 analysis_id, run_ac db5 analysis_id])

/-- `d['drawn_date'] or 'unknown'` (empty string is falsy). -/
def date_or_unknown : Option String → String
  | none => "unknown"
  | some "" => "unknown"
  | some s => s

/-- `d['analysis_text'] or '(no description available)'`. -/
def text_or_default : Option String → String
  | none => "(no description available)"
  | some "" => "(no description available)"
  | some t => t

/-- The phase-3 selection: links of the lens at or above the threshold,
not yet annotated, joined to drawings holding analysis text, in
date/filename order. -/
def annotate_rows (s : Settings) (db : DB) (lens_id : Nat) : List (Drawing × Link) :=
  sortByLe (fun a b => drawingLe a.1 b.1)
    (db.links.filterMap (fun l =>
      if l.lens_id == lens_id && decide (s.relevance_threshold ≤ l.relevance_score)
          && ( Link.annotation l).isNone then
        match db.drawings.find? (fun d => d.id == l.drawing_id && d.analysis_text.isSome) with
        | some d => some (d, l)
        | none => none
      else none))

/-- The text block listing one phase-3 batch. -/
def entries_block (batch : List (Drawing × Link)) : String :=
  String.intercalate "\n" (batch.map (fun dl =>
    dl.1.filename ++ " (" ++ date_or_unknown dl.1.drawn_date ++ "): "
      ++ text_or_default dl.1.analysis_text))

/-- The dict comprehension of `_annotate_batch`, mapping each response
object's filename to its annotation value (defaults as in the source). -/
def build_annotation_map : List Json → Except String (List (String × Json))
  | [] => Except.ok []
  | item :: rest =>
    match item with
    | Json.obj fields =>
      match (objGet fields "filename").getD (Json.str "") with
      | Json.str s =>
        match build_annotation_map rest with
        | Except.ok m =>
          Except.ok ((s, (objGet fields "annotation").getD (Json.str "")) :: m)
        | Except.error e => Except.error e
      | Json.arr _ => Except.error "unhashable type in filename key"
      | Json.obj _ => Except.error "unhashable type in filename key"
      | _ => build_annotation_map rest
    | _ => Except.error "item.get called on a non-object response element"

/-- `UPDATE lens_drawing_links ... WHERE lens_id = ? AND drawing_id = ?`. -/
def update_link (db : DB) (lens_id drawing_id : Nat) (f : Link → Link) : DB :=
  { db with links := db.links.map (fun l =>
      if l.lens_id = lens_id ∧ l.drawing_id = drawing_id then f l else l) }

/-- The write loop of `_annotate_batch`: truthy annotations are written
with their timestamp; missing or falsy entries leave the link untouched. -/
def annotate_store (env : Env) (lens : Lens) (amap : List (String × Json)) :
    List (Drawing × Link) → DB → DB × Option String
  | [], db => (db, none)
  | dl :: rest, db =>
    match objGet amap dl.1.filename with
    | some a =>
      if jsonTruthy a then
        match bind_db_text a with
        | Except.ok txt =>
          annotate_store env lens amap rest
            (update_link db lens.id dl.1.id (fun l =>
              { l with annotation := txt, annotation_generated_at := some env.now }))
        | Except.error e => (db, some e)
      else annotate_store env lens amap rest db
    | none => annotate_store env lens amap rest db

/-- `_annotate_batch`: render the prompt, call the service — an inference
failure is caught, logged and the batch is skipped — then parse and store. -/
def annotate_batch (env : Env) (s : Settings) (lens : Lens)
    (batch : List (Drawing × Link)) (db : DB) : DB × Option String :=
  let prompt := env.render "lens_annotation_batch"
    [("lens_name", lens.name), ("lens_description", lens.description),
     ("drawing_entries", entries_block batch)]
  match env.synthesize_text prompt s.max_tokens_annotation_batch with
  | Except.error _ => (db, none)
  | Except.ok raw =>
    match build_annotation_map (parse_json_list raw) with
    | Except.error e => (db, some e)
    | Except.ok amap => annotate_store env lens amap batch db

/-- The batch loop of `generate_lens_annotations` with its commit per
batch; an escaped Python-level error is caught at the top and the current
batch's uncommitted writes are rolled back by `db.close()`. -/
def annotate_loop (env : Env) (s : Settings) (lens : Lens) :
    List (List (Drawing × Link)) → DB → DB
  | [], db => db
  | batch :: rest, db =>
    match annotate_batch env s lens batch db with
    | (db1, none) => annotate_loop env s lens rest db1
    | (_, some _) => db

/-- `generate_lens_annotations` (phase 3, fire-and-forget). -/
def generate_lens_annotations (env : Env) (s : Settings) (lens_id user_id : Nat)
    (db : DB) : DB :=
  match db.lenses.find? (fun l => l.id == lens_id && l.user_id == user_id) with
  | none => db
  | some lens =>
    let rows := annotate_rows s db lens_id
    if rows.isEmpty then db
    else annotate_loop env s lens (chunksOf 10 rows) db

/-! ### C3 — transient inference failures across the phases -/

/-- A database whose single drawing is fully analyzed, with a pending run:
phase 1 has nothing to do and phase 2 has input. -/
def dbC3 : DB :=
  { drawings := [drawTwoA],
    runs := [{ id := 1, user_id := 1, status := RunStatus.pending, phase := none,
               total_drawings := 0, analyzed_count := 0, error_message := none,
               model_used := none, completed_at := none }],
    lenses := [], links := [], next_run_id := 2, next_lens_id := 1, next_link_id := 1 }

/-- Counterexample to C3 as stated: with the inference client failing
(`envDown.synthesize_text` always raises), the run transitions to `failed` —
the phase-2 client failure is re-raised as `RuntimeError` and caught by the
run boundary, so it is not merely skipped. -/
theorem claim_C3_counterexample :
    run_status (run_full_pipeline envDown defaultSettings 1 1 dbC3).1 1
      = some RunStatus.failed := by
  rfl

theorem find?_map_id_pres {f : Run → Run} (hid : ∀ r, (f r).id = r.id) (aid : Nat) :
    ∀ l : List Run,
      (l.map (fun r => if r.id = aid then f r else r)).find? (fun r => r.id == aid)
        = (l.find? (fun r => r.id == aid)).map (fun r => if r.id = aid then f r else r) := by
  intro l
  induction l with
  | nil => rfl
  | cons r rs ih =>
    by_cases hr : r.id = aid
    · simp [hr, hid r]
    · simp [hr, ih]

theorem run_status_fail (db : DB) (aid : Nat) (e : String)
    (hex : (db.runs.find? (fun r => r.id == aid)).isSome) :
    run_status (fail_run db aid e) aid = some RunStatus.failed := by
  unfold run_status fail_run update_run
  rw [find?_map_id_pres (by intro r; rfl) aid]
  cases hf : db.runs.find? (fun r => r.id == aid) with
  | none => rw [hf] at hex; simp at hex
  | some r =>
    have hpred := List.find?_some hf
    simp only [beq_iff_eq] at hpred
    simp [hpred]

theorem find?_isSome_update_run (db : DB) (aid : Nat) (f : Run → Run)
    (hid : ∀ r, (f r).id = r.id)
    (hex : (db.runs.find? (fun r => r.id == aid)).isSome) :
    ((update_run db aid f).runs.find? (fun r => r.id == aid)).isSome := by
  unfold update_run
  rw [find?_map_id_pres hid]
  cases hf : db.runs.find? (fun r => r.id == aid) with
  | none => rw [hf] at hex; simp at hex
  | some r => simp

theorem phase1_loop_all_skipped (env : Env) (s : Settings) (aid : Nat)
    (prompt : String) (n : Nat)
    (hfail : ∀ imgs p mt, ∃ e, env.analyze_batch imgs p mt = Except.error e) :
    ∀ (chunks : List (List Drawing)) (bs0 : Nat) (db : DB),
      phase1_loop env s aid prompt n chunks bs0 db = (db, [], none) := by
  intro chunks
  induction chunks with
  | nil => intro bs0 db; rfl
  | cons batch rest ih =>
    intro bs0 db
    have hskip : phase1_process_batch env s prompt batch db = BatchOutcome.skipped := by
      by_cases hempty : (load_images env batch).isEmpty
      · simp [phase1_process_batch, hempty]
      · obtain ⟨e, he⟩ := hfail (load_images env batch) prompt
          ((load_images env batch).length * s.max_tokens_per_image + 500)
        simp [phase1_process_batch, hempty, he]
    have hred : phase1_loop env s aid prompt n (batch :: rest) bs0 db
        = phase1_loop env s aid prompt n rest (bs0 + s.batch_size) db := by
      rw [phase1_loop, hskip]
    rw [hred, ih]

theorem phase1_all_skipped (env : Env) (s : Settings) (user_id aid : Nat) (db : DB)
    (hfail : ∀ imgs p mt, ∃ e, env.analyze_batch imgs p mt = Except.error e) :
    phase1_batch_analysis env s user_id aid db = (db, [], none) := by
  by_cases hsel : (phase1_select db user_id).isEmpty
  · simp [phase1_batch_analysis, hsel]
  · have key : phase1_batch_analysis env s user_id aid db
        = phase1_loop env s aid (env.render "drawing_batch_analysis" [])
            (phase1_select db user_id).length
            (chunksOf s.batch_size (phase1_select db user_id)) 0 db := by
      simp [phase1_batch_analysis, hsel]
    rw [key, phase1_loop_all_skipped env s aid _ _ hfail]

theorem annotate_loop_all_failed (env : Env) (s : Settings) (lens : Lens)
    (hfail : ∀ p mt, ∃ e, env.synthesize_text p mt = Except.error e) :
    ∀ (batches : List (List (Drawing × Link))) (db : DB),
      annotate_loop env s lens batches db = db := by
  intro batches
  induction batches with
  | nil => intro db; rfl
  | cons batch rest ih =>
    intro db
    have hb : annotate_batch env s lens batch db = (db, none) := by
      obtain ⟨e, he⟩ := hfail
        (env.render "lens_annotation_batch"
          [("lens_name", lens.name), ("lens_description", lens.description),
           ("drawing_entries", entries_block batch)])
        s.max_tokens_annotation_batch
      simp [annotate_batch, he]
    have hred : annotate_loop env s lens (batch :: rest) db
        = annotate_loop env s lens rest db := by
      rw [annotate_loop, hb]
    rw [hred, ih]

theorem generate_lens_annotations_all_failed (env : Env) (s : Settings)
    (lid uid : Nat) (db : DB)
    (hfail : ∀ p mt, ∃ e, env.synthesize_text p mt = Except.error e) :
    generate_lens_annotations env s lid uid db = db := by
  unfold generate_lens_annotations
  cases hfind : db.lenses.find? (fun l => l.id == lid && l.user_id == uid) with
  | none => rfl
  | some lens =>
    by_cases hrows : (annotate_rows s db lid).isEmpty
    · simp [hrows]
    · simp [hrows, annotate_loop_all_failed env s lens hfail]

/-- C3 as amended: a transient inference-client failure in phase 1 skips
the batch and never fails the run (with a failing client phase 1 is a
no-op with no error), and in phase 3 it is absorbed (the annotation pass
returns with the database unchanged); but in phase 2 the failure is
re-raised and the run transitions to `failed`. -/
theorem claim_C3_amended_phase2_failure_aborts_run :
    ∀ (env : Env) (s : Settings) (user_id analysis_id lens_id : Nat) (db : DB),
      (∀ imgs p mt, ∃ e, env.analyze_batch imgs p mt = Except.error e) →
      (∀ p mt, ∃ e, env.synthesize_text p mt = Except.error e) →
      phase1_batch_analysis env s user_id analysis_id db = (db, [], none) ∧
      generate_lens_annotations env s lens_id user_id db = db ∧
      (¬(phase2_select db user_id).isEmpty = true →
        (db.runs.find? (fun r => r.id == analysis_id)).isSome →
        run_status (run_full_pipeline env s user_id analysis_id db).1 analysis_id
          = some RunStatus.failed) := by
  intro env s user_id analysis_id lens_id db hfail1 hfail2
  refine ⟨phase1_all_skipped env s user_id analysis_id db hfail1,
    generate_lens_annotations_all_failed env s lens_id user_id db hfail2, ?_⟩
  intro hsel hex
  have h1 : phase1_batch_analysis env s user_id analysis_id
      (pipeline_begin db user_id analysis_id)
      = (pipeline_begin db user_id analysis_id, [], none) :=
    phase1_all_skipped env s user_id analysis_id _ hfail1
  obtain ⟨e, he⟩ := hfail2
    (env.render "lens_discovery"
      [("year_range", year_range_of (phase2_select
          (update_run (pipeline_begin db user_id analysis_id) analysis_id
            (fun r => { r with phase := some RunPhase.lens_discovery })) user_id)),
       ("total_count", toString (phase2_select
          (update_run (pipeline_begin db user_id analysis_id) analysis_id
            (fun r => { r with phase := some RunPhase.lens_discovery })) user_id).length),
       ("all_summaries", summaries_block (phase2_select
          (update_run (pipeline_begin db user_id analysis_id) analysis_id
            (fun r => { r with phase := some RunPhase.lens_discovery })) user_id))])
    s.max_tokens_lens_discovery
  have hsel3 : ¬(phase2_select
      (update_run (pipeline_begin db user_id analysis_id) analysis_id
        (fun r => { r with phase := some RunPhase.lens_discovery })) user_id).isEmpty
      = true := hsel
  have h2 : phase2_lens_discovery env s user_id analysis_id
      (update_run (pipeline_begin db user_id analysis_id) analysis_id
        (fun r => { r with phase := some RunPhase.lens_discovery }))
      = (update_run (pipeline_begin db user_id analysis_id) analysis_id
          (fun r => { r with phase := some RunPhase.lens_discovery }),
         some ("Lens discovery API call failed: " ++ e)) := by
    simp [phase2_lens_discovery, hsel3, he]
  have key : (run_full_pipeline env s user_id analysis_id db).1
      = fail_run
          (update_run (pipeline_begin db user_id analysis_id) analysis_id
            (fun r => { r with phase := some RunPhase.lens_discovery }))
          analysis_id ("Lens discovery API call failed: " ++ e) := by
    simp [run_full_pipeline, h1, h2]
  rw [key]
  exact run_status_fail _ _ _
    (find?_isSome_update_run _ _ _ (fun r => rfl)
      (find?_isSome_update_run _ _ _ (fun r => rfl) hex))

/-- Witness for the amended C3 at the concrete inputs of the
counterexample: phase 1 is a no-op without error, phase 3 is absorbed, and
the run fails in phase 2. -/
theorem claim_C3_amended_witness :
    phase1_batch_analysis envDown defaultSettings 1 1 dbC3 = (dbC3, [], none) ∧
    generate_lens_annotations envDown defaultSettings 1 1 dbC3 = dbC3 ∧
    run_status (run_full_pipeline envDown defaultSettings 1 1 dbC3).1 1
      = some RunStatus.failed := by
  have h := claim_C3_amended_phase2_failure_aborts_run envDown defaultSettings 1 1 1 dbC3
    (fun _ _ _ => ⟨"service unavailable", rfl⟩)
    (fun _ _ => ⟨"service unavailable", rfl⟩)
  exact ⟨h.1, h.2.1, h.2.2 (by decide) (by decide)⟩

/-! ### C4 — monotonicity of the committed `analyzed_count` -/

theorem run_ac_update_pres (db : DB) (aid : Nat) (f : Run → Run)
    (hid : ∀ r, (f r).id = r.id) (hac : ∀ r, (f r).analyzed_count = r.analyzed_count) :
    run_ac (update_run db aid f) aid = run_ac db aid := by
  unfold run_ac update_run
  rw [find?_map_id_pres hid]
  cases hf : db.runs.find? (fun r => r.id == aid) with
  | none => rfl
  | some r => by_cases hrr : r.id = aid <;> simp [hrr, hac r]

theorem run_total_update_pres (db : DB) (aid : Nat) (f : Run → Run)
    (hid : ∀ r, (f r).id = r.id) (htot : ∀ r, (f r).total_drawings = r.total_drawings) :
    run_total (update_run db aid f) aid = run_total db aid := by
  unfold run_total update_run
  rw [find?_map_id_pres hid]
  cases hf : db.runs.find? (fun r => r.id == aid) with
  | none => rfl
  | some r => by_cases hrr : r.id = aid <;> simp [hrr, htot r]

theorem run_ac_set (db : DB) (aid v : Nat)
    (hex : (db.runs.find? (fun r => r.id == aid)).isSome) :
    run_ac (update_run db aid (fun r => { r with analyzed_count := v })) aid = v := by
  unfold run_ac update_run
  rw [@find?_map_id_pres (fun r => { r with analyzed_count := v }) (fun r => rfl) aid db.runs]
  cases hf : db.runs.find? (fun r => r.id == aid) with
  | none => rw [hf] at hex; simp at hex
  | some r =>
    have hpred := List.find?_some hf
    simp only [beq_iff_eq] at hpred
    simp [hpred]

theorem run_total_begin (db : DB) (user_id aid : Nat)
    (hex : (db.runs.find? (fun r => r.id == aid)).isSome) :
    run_total (pipeline_begin db user_id aid) aid = count_user_drawings db user_id := by
  unfold run_total pipeline_begin update_run
  rw [@find?_map_id_pres
    (fun r => { r with
        status := RunStatus.running, phase := some RunPhase.batch_analysis,
        total_drawings := count_user_drawings db user_id })
    (fun r => rfl) aid db.runs]
  cases hf : db.runs.find? (fun r => r.id == aid) with
  | none => rw [hf] at hex; simp at hex
  | some r =>
    have hpred := List.find?_some hf
    simp only [beq_iff_eq] at hpred
    simp [hpred]

theorem phase1_store_runs (env : Env) (fmap : List (String × Json)) :
    ∀ (batch : List Drawing) (db : DB),
      (phase1_store env fmap batch db).1.runs = db.runs := by
  intro batch
  induction batch with
  | nil => intro db; rfl
  | cons d rest ih =>
    intro db
    cases hstep : phase1_store_step env fmap d db with
    | ok db1 =>
      obtain ⟨txt, hdb1⟩ := phase1_store_step_ok env fmap d db db1 hstep
      have hred : phase1_store env fmap (d :: rest) db = phase1_store env fmap rest db1 := by
        rw [phase1_store, hstep]
      rw [hred, ih, hdb1]
      rfl
    | error e =>
      have hred : phase1_store env fmap (d :: rest) db = (db, some e) := by
        rw [phase1_store, hstep]
      rw [hred]

theorem phase1_process_batch_runs (env : Env) (s : Settings) (prompt : String)
    (batch : List Drawing) (db db2 : DB)
    (hout : phase1_process_batch env s prompt batch db = BatchOutcome.stored db2 ∨
            ∃ e, phase1_process_batch env s prompt batch db = BatchOutcome.raised db2 e) :
    db2.runs = db.runs := by
  by_cases hempty : (load_images env batch).isEmpty
  · have key : phase1_process_batch env s prompt batch db = BatchOutcome.skipped := by
      simp [phase1_process_batch, hempty]
    rw [key] at hout
    rcases hout with hc | ⟨e, hc⟩ <;> simp at hc
  · cases hcall : env.analyze_batch (load_images env batch) prompt
        ((load_images env batch).length * s.max_tokens_per_image + 500) with
    | error e =>
      have key : phase1_process_batch env s prompt batch db = BatchOutcome.skipped := by
        simp [phase1_process_batch, hempty, hcall]
      rw [key] at hout
      rcases hout with hc | ⟨e2, hc⟩ <;> simp at hc
    | ok raw =>
      cases hbuild : build_filename_map (parse_json_list raw) with
      | error e =>
        have key : phase1_process_batch env s prompt batch db
            = BatchOutcome.raised db e := by
          simp [phase1_process_batch, hempty, hcall, hbuild]
        rw [key] at hout
        rcases hout with hc | ⟨e2, hc⟩ <;> simp at hc
        · rw [← hc.1]
      | ok fmap =>
        rcases hstore : phase1_store env fmap batch db with ⟨db3, err3⟩
        have hruns : db3.runs = db.runs := by
          have := phase1_store_runs env fmap batch db
          rw [hstore] at this
          exact this
        cases err3 with
        | none =>
          have key : phase1_process_batch env s prompt batch db
              = BatchOutcome.stored db3 := by
            simp [phase1_process_batch, hempty, hcall, hbuild, hstore]
          rw [key] at hout
          rcases hout with hc | ⟨e2, hc⟩ <;> simp at hc
          · rw [← hc]; exact hruns
        | some e3 =>
          have key : phase1_process_batch env s prompt batch db
              = BatchOutcome.raised db3 e3 := by
            simp [phase1_process_batch, hempty, hcall, hbuild, hstore]
          rw [key] at hout
          rcases hout with hc | ⟨e2, hc⟩ <;> simp at hc
          · rw [← hc.1]; exact hruns

theorem insert_lens_runs (db : DB) (u a : Nat) (nm ds : String) (so : Nat)
    (rawout : String) :
    (insert_or_ignore_lens db u a nm ds so rawout).runs = db.runs := by
  unfold insert_or_ignore_lens
  by_cases hex : db.lenses.any (fun l => l.user_id == u && l.name == nm) <;> simp [hex]

theorem insert_link_runs (db : DB) (lid did : Nat) (q : Rat) :
    (insert_or_ignore_link db lid did q).runs = db.runs := by
  unfold insert_or_ignore_link
  by_cases hex : db.links.any (fun l => l.lens_id == lid && l.drawing_id == did) <;>
    simp [hex]

theorem store_relevance_runs (lid : Nat) (f : List (String × Nat)) :
    ∀ (rel : List (String × Json)) (db : DB),
      (store_relevance lid f rel db).1.runs = db.runs := by
  intro rel
  induction rel with
  | nil => intro db; rfl
  | cons kv rest ih =>
    obtain ⟨fn, score⟩ := kv
    intro db
    cases hget : assocGetNat f fn with
    | none =>
      have hred : store_relevance lid f ((fn, score) :: rest) db
          = store_relevance lid f rest db := by
        rw [store_relevance, hget]
      rw [hred, ih]
    | some did2 =>
      cases hfl : pyFloat score with
      | ok q =>
        have hred : store_relevance lid f ((fn, score) :: rest) db
            = store_relevance lid f rest (insert_or_ignore_link db lid did2 q) := by
          rw [store_relevance, hget, hfl]
        rw [hred, ih, insert_link_runs]
      | error e =>
        have hred : store_relevance lid f ((fn, score) :: rest) db = (db, some e) := by
          rw [store_relevance, hget, hfl]
        rw [hred]

theorem phase2_store_lens_runs (user aid : Nat) (f : List (String × Nat))
    (so : Nat) (ld : Json) (db : DB) :
    (phase2_store_lens user aid f so ld db).1.runs = db.runs := by
  cases hn : lens_name_of ld so with
  | error e =>
    have hred : phase2_store_lens user aid f so ld db = (db, some e) := by
      simp [phase2_store_lens, hn]
    rw [hred]
  | ok name =>
    cases hd : lens_description_of ld with
    | error e =>
      have hred : phase2_store_lens user aid f so ld db = (db, some e) := by
        simp [phase2_store_lens, hn, hd]
      rw [hred]
    | ok desc =>
      cases hf : find_lens_id (insert_or_ignore_lens db user aid name desc so (dumpJson ld))
          user name with
      | none =>
        have hred : phase2_store_lens user aid f so ld db
            = (insert_or_ignore_lens db user aid name desc so (dumpJson ld),
               some "lens lookup failed") := by
          simp [phase2_store_lens, hn, hd, hf]
        rw [hred]
        exact insert_lens_runs db user aid name desc so (dumpJson ld)
      | some lid3 =>
        cases hr : lens_relevance_of ld with
        | error e =>
          have hred : phase2_store_lens user aid f so ld db
              = (insert_or_ignore_lens db user aid name desc so (dumpJson ld), some e) := by
            simp [phase2_store_lens, hn, hd, hf, hr]
          rw [hred]
          exact insert_lens_runs db user aid name desc so (dumpJson ld)
        | ok rel =>
          have hred : phase2_store_lens user aid f so ld db
              = store_relevance lid3 f rel
                  (insert_or_ignore_lens db user aid name desc so (dumpJson ld)) := by
            simp [phase2_store_lens, hn, hd, hf, hr]
          rw [hred, store_relevance_runs, insert_lens_runs]

theorem phase2_lens_loop_runs (user aid : Nat) (f : List (String × Nat)) :
    ∀ (ls : List Json) (so : Nat) (db : DB),
      (phase2_lens_loop user aid f ls so db).1.runs = db.runs := by
  intro ls
  induction ls with
  | nil => intro so db; rfl
  | cons ld rest ih =>
    intro so db
    rcases hsl : phase2_store_lens user aid f so ld db with ⟨db1, err1⟩
    have hruns : db1.runs = db.runs := by
      have := phase2_store_lens_runs user aid f so ld db
      rw [hsl] at this
      exact this
    cases err1 with
    | some e =>
      have hred : phase2_lens_loop user aid f (ld :: rest) so db = (db1, some e) := by
        rw [phase2_lens_loop, hsl]
      rw [hred]
      exact hruns
    | none =>
      have hred : phase2_lens_loop user aid f (ld :: rest) so db
          = phase2_lens_loop user aid f rest (so + 1) db1 := by
        rw [phase2_lens_loop, hsl]
      rw [hred, ih, hruns]

theorem phase2_runs (env : Env) (s : Settings) (user_id analysis_id : Nat) (db : DB) :
    (phase2_lens_discovery env s user_id analysis_id db).1.runs = db.runs := by
  rcases phase2_top_cases env s user_id analysis_id db with hcase | ⟨e, hcase⟩ | ⟨ls, hcase⟩
  · rw [hcase]
  · rw [hcase]
  · rw [hcase, phase2_lens_loop_runs]

theorem phase1_loop_trace (env : Env) (s : Settings) (aid : Nat) (prompt : String)
    (n : Nat) :
    ∀ (chunks : List (List Drawing)) (bs0 : Nat) (db : DB),
      (db.runs.find? (fun r => r.id == aid)).isSome →
      run_ac db aid ≤ min (bs0 + s.batch_size) n →
      ((phase1_loop env s aid prompt n chunks bs0 db).1.runs.find?
          (fun r => r.id == aid)).isSome ∧
      run_total (phase1_loop env s aid prompt n chunks bs0 db).1 aid = run_total db aid ∧
      (∀ v ∈ (phase1_loop env s aid prompt n chunks bs0 db).2.1, v ≤ n) ∧
      List.Chain' (· ≤ ·)
        (run_ac db aid :: (phase1_loop env s aid prompt n chunks bs0 db).2.1
          ++ [run_ac (phase1_loop env s aid prompt n chunks bs0 db).1 aid]) ∧
      (run_ac (phase1_loop env s aid prompt n chunks bs0 db).1 aid = run_ac db aid ∨
        run_ac (phase1_loop env s aid prompt n chunks bs0 db).1 aid
          ∈ (phase1_loop env s aid prompt n chunks bs0 db).2.1) := by
  intro chunks
  induction chunks with
  | nil =>
    intro bs0 db hex _
    refine ⟨hex, rfl, by intro v hv; exact absurd hv (List.not_mem_nil v), ?_, Or.inl rfl⟩
    show List.Chain' (· ≤ ·) [run_ac db aid, run_ac db aid]
    exact List.chain'_pair.mpr le_rfl
  | cons batch rest ih =>
    intro bs0 db hex hle
    cases hout : phase1_process_batch env s prompt batch db with
    | skipped =>
      have hred : phase1_loop env s aid prompt n (batch :: rest) bs0 db
          = phase1_loop env s aid prompt n rest (bs0 + s.batch_size) db := by
        rw [phase1_loop, hout]
      rw [hred]
      exact ih (bs0 + s.batch_size) db hex
        (le_trans hle (min_le_min (by omega) le_rfl))
    | raised db2 e =>
      have hruns2 : db2.runs = db.runs :=
        phase1_process_batch_runs env s prompt batch db db2 (Or.inr ⟨e, hout⟩)
      have hred : phase1_loop env s aid prompt n (batch :: rest) bs0 db
          = (db2, [], some e) := by
        rw [phase1_loop, hout]
      rw [hred]
      have hac2 : run_ac db2 aid = run_ac db aid := by unfold run_ac; rw [hruns2]
      refine ⟨by rw [hruns2]; exact hex, by unfold run_total; rw [hruns2],
        by intro v hv; exact absurd hv (List.not_mem_nil v), ?_, Or.inl hac2⟩
      show List.Chain' (· ≤ ·) [run_ac db aid, run_ac db2 aid]
      rw [hac2]
      exact List.chain'_pair.mpr le_rfl
    | stored db2 =>
      have hruns2 : db2.runs = db.runs :=
        phase1_process_batch_runs env s prompt batch db db2 (Or.inl hout)
      have hex2 : (db2.runs.find? (fun r => r.id == aid)).isSome := by
        rw [hruns2]; exact hex
      have hex3 : ((update_run db2 aid
          (fun r => { r with analyzed_count := min (bs0 + s.batch_size) n })).runs.find?
          (fun r => r.id == aid)).isSome :=
        find?_isSome_update_run db2 aid _ (fun r => rfl) hex2
      have hac3 : run_ac (update_run db2 aid
          (fun r => { r with analyzed_count := min (bs0 + s.batch_size) n })) aid
          = min (bs0 + s.batch_size) n :=
        run_ac_set db2 aid (min (bs0 + s.batch_size) n) hex2
      have htot3 : run_total (update_run db2 aid
          (fun r => { r with analyzed_count := min (bs0 + s.batch_size) n })) aid
          = run_total db aid := by
        rw [run_total_update_pres db2 aid
          (fun r => { r with analyzed_count := min (bs0 + s.batch_size) n })
          (fun r => rfl) (fun r => rfl)]
        unfold run_total
        rw [hruns2]
      have hle3 : run_ac (update_run db2 aid
          (fun r => { r with analyzed_count := min (bs0 + s.batch_size) n })) aid
          ≤ min (bs0 + s.batch_size + s.batch_size) n := by
        rw [hac3]
        exact min_le_min (by omega) le_rfl
      obtain ⟨ih1, ih2, ih3, ih4, ih5⟩ := ih (bs0 + s.batch_size) _ hex3 hle3
      have hred : phase1_loop env s aid prompt n (batch :: rest) bs0 db
          = ((phase1_loop env s aid prompt n rest (bs0 + s.batch_size)
                (update_run db2 aid
                  (fun r => { r with analyzed_count := min (bs0 + s.batch_size) n }))).1,
             min (bs0 + s.batch_size) n
               :: (phase1_loop env s aid prompt n rest (bs0 + s.batch_size)
                (update_run db2 aid
                  (fun r => { r with analyzed_count := min (bs0 + s.batch_size) n }))).2.1,
             (phase1_loop env s aid prompt n rest (bs0 + s.batch_size)
                (update_run db2 aid
                  (fun r => { r with analyzed_count := min (bs0 + s.batch_size) n }))).2.2) := by
        rw [phase1_loop, hout]
      rw [hred]
      refine ⟨ih1, by rw [ih2, htot3], ?_, ?_, ?_⟩
      · intro v hv
        rcases List.mem_cons.mp hv with hh | ht
        · rw [hh]; exact min_le_right _ _
        · exact ih3 v ht
      · show List.Chain' (· ≤ ·)
          (run_ac db aid :: min (bs0 + s.batch_size) n
            :: ((phase1_loop env s aid prompt n rest (bs0 + s.batch_size)
                (update_run db2 aid
                  (fun r => { r with analyzed_count := min (bs0 + s.batch_size) n }))).2.1
              ++ [run_ac (phase1_loop env s aid prompt n rest (bs0 + s.batch_size)
                (update_run db2 aid
                  (fun r => { r with analyzed_count := min (bs0 + s.batch_size) n }))).1 aid]))
        rw [List.chain'_cons]
        refine ⟨hle, ?_⟩
        rw [hac3] at ih4
        exact ih4
      · rcases ih5 with h5 | h5
        · exact Or.inr (by rw [h5, hac3]; exact List.mem_cons_self _ _)
        · exact Or.inr (List.mem_cons_of_mem _ h5)

theorem chain'_snoc_dup {l : List Nat} {x : Nat}
    (h : List.Chain' (· ≤ ·) (l ++ [x])) :
    List.Chain' (· ≤ ·) (l ++ [x, x]) := by
  have heq : l ++ [x, x] = (l ++ [x]) ++ [x] := by simp
  rw [heq, List.chain'_append]
  refine ⟨h, List.chain'_singleton x, ?_⟩
  intro a ha b hb
  have hlast : (l ++ [x]).getLast? = some x := by
    rw [List.getLast?_concat]
  rw [hlast] at ha
  simp at ha hb
  rw [← ha, ← hb]

theorem phase1_trace (env : Env) (s : Settings) (user_id aid : Nat) (db : DB)
    (hex : (db.runs.find? (fun r => r.id == aid)).isSome)
    (h0 : run_ac db aid = 0) :
    ((phase1_batch_analysis env s user_id aid db).1.runs.find?
        (fun r => r.id == aid)).isSome ∧
    run_total (phase1_batch_analysis env s user_id aid db).1 aid = run_total db aid ∧
    (∀ v ∈ (phase1_batch_analysis env s user_id aid db).2.1,
      v ≤ count_user_drawings db user_id) ∧
    List.Chain' (· ≤ ·)
      (run_ac db aid :: (phase1_batch_analysis env s user_id aid db).2.1
        ++ [run_ac (phase1_batch_analysis env s user_id aid db).1 aid]) ∧
    run_ac (phase1_batch_analysis env s user_id aid db).1 aid
      ≤ count_user_drawings db user_id := by
  have hn : (phase1_select db user_id).length ≤ count_user_drawings db user_id := by
    rw [phase1_select, length_sortByLe]
    exact length_filter_and_le _ _ _
  by_cases hsel : (phase1_select db user_id).isEmpty
  · have h1 : phase1_batch_analysis env s user_id aid db = (db, [], none) := by
      simp [phase1_batch_analysis, hsel]
    rw [h1]
    refine ⟨hex, rfl, by intro v hv; exact absurd hv (List.not_mem_nil v), ?_, ?_⟩
    · show List.Chain' (· ≤ ·) [run_ac db aid, run_ac db aid]
      exact List.chain'_pair.mpr le_rfl
    · rw [h0]; exact Nat.zero_le _
  · have key : phase1_batch_analysis env s user_id aid db
        = phase1_loop env s aid (env.render "drawing_batch_analysis" [])
            (phase1_select db user_id).length
            (chunksOf s.batch_size (phase1_select db user_id)) 0 db := by
      simp [phase1_batch_analysis, hsel]
    obtain ⟨L1, L2, L3, L4, L5⟩ := phase1_loop_trace env s aid
      (env.render "drawing_batch_analysis" []) (phase1_select db user_id).length
      (chunksOf s.batch_size (phase1_select db user_id)) 0 db hex
      (by rw [h0]; exact Nat.zero_le _)
    rw [key]
    refine ⟨L1, L2, fun v hv => le_trans (L3 v hv) hn, L4, ?_⟩
    rcases L5 with h5 | h5
    · rw [h5, h0]; exact Nat.zero_le _
    · exact le_trans (L3 _ h5) hn

/-- C4: over a run's lifetime the committed `analyzed_count` values are
non-decreasing and never exceed the owner's item count, which is exactly
the run's `total_drawings`. -/
theorem claim_C4_analyzed_count_monotone :
    ∀ (env : Env) (s : Settings) (user_id analysis_id : Nat) (db : DB),
      (db.runs.find? (fun r => r.id == analysis_id)).isSome →
      run_ac db analysis_id = 0 →
      List.Chain' (· ≤ ·) (run_full_pipeline env s user_id analysis_id db).2 ∧
      (∀ v ∈ (run_full_pipeline env s user_id analysis_id db).2,
        v ≤ count_user_drawings db user_id) ∧
      run_total (run_full_pipeline env s user_id analysis_id db).1 analysis_id
        = count_user_drawings db user_id := by
  intro env s user_id aid db hex h0
  have hbegin : pipeline_begin db user_id aid
      = update_run db aid (fun r => { r with
          status := RunStatus.running, phase := some RunPhase.batch_analysis,
          total_drawings := count_user_drawings db user_id }) := rfl
  have hex1 : ((pipeline_begin db user_id aid).runs.find?
      (fun r => r.id == aid)).isSome := by
    rw [hbegin]
    exact find?_isSome_update_run db aid _ (fun r => rfl) hex
  have hac1 : run_ac (pipeline_begin db user_id aid) aid = 0 := by
    rw [hbegin, run_ac_update_pres db aid
      (fun r => { r with
          status := RunStatus.running, phase := some RunPhase.batch_analysis,
          total_drawings := count_user_drawings db user_id })
      (fun r => rfl) (fun r => rfl)]
    exact h0
  have htot1 : run_total (pipeline_begin db user_id aid) aid
      = count_user_drawings db user_id := run_total_begin db user_id aid hex
  obtain ⟨F1, F2, F3, F4, F5⟩ := phase1_trace env s user_id aid
    (pipeline_begin db user_id aid) hex1 hac1
  rcases h1eq : phase1_batch_analysis env s user_id aid (pipeline_begin db user_id aid)
    with ⟨db2, tr, err⟩
  rw [h1eq] at F1 F2 F3 F4 F5
  have G1 : (db2.runs.find? (fun r => r.id == aid)).isSome := F1
  have G2 : run_total db2 aid = count_user_drawings db user_id := by
    have : run_total db2 aid = run_total (pipeline_begin db user_id aid) aid := F2
    rw [this, htot1]
  have G3 : ∀ v ∈ tr, v ≤ count_user_drawings db user_id := F3
  have G4 : List.Chain' (· ≤ ·)
      (run_ac (pipeline_begin db user_id aid) aid :: tr ++ [run_ac db2 aid]) := F4
  have G5 : run_ac db2 aid ≤ count_user_drawings db user_id := F5
  cases err with
  | some e =>
    have key : run_full_pipeline env s user_id aid db
        = (fail_run db2 aid e,
           run_ac (pipeline_begin db user_id aid) aid :: tr
             ++ [run_ac (fail_run db2 aid e) aid]) := by
      simp [run_full_pipeline, h1eq]
    have hacf : run_ac (fail_run db2 aid e) aid = run_ac db2 aid := by
      unfold fail_run
      exact run_ac_update_pres db2 aid _ (fun r => rfl) (fun r => rfl)
    have htotf : run_total (fail_run db2 aid e) aid = run_total db2 aid := by
      unfold fail_run
      exact run_total_update_pres db2 aid _ (fun r => rfl) (fun r => rfl)
    rw [key]
    refine ⟨?_, ?_, by rw [htotf, G2]⟩
    · show List.Chain' (· ≤ ·)
        (run_ac (pipeline_begin db user_id aid) aid :: tr
          ++ [run_ac (fail_run db2 aid e) aid])
      rw [hacf]
      exact G4
    · intro v hv
      rcases List.mem_cons.mp hv with hh | ht
      · rw [hh, hac1]; exact Nat.zero_le _
      · rcases List.mem_append.mp ht with h2 | h2
        · exact G3 v h2
        · have : v = run_ac (fail_run db2 aid e) aid := by simpa using h2
          rw [this, hacf]
          exact G5
  | none =>
    have hex3 : ((update_run db2 aid
        (fun r => { r with phase := some RunPhase.lens_discovery })).runs.find?
        (fun r => r.id == aid)).isSome :=
      find?_isSome_update_run db2 aid _ (fun r => rfl) G1
    have hac3 : run_ac (update_run db2 aid
        (fun r => { r with phase := some RunPhase.lens_discovery })) aid
        = run_ac db2 aid :=
      run_ac_update_pres db2 aid _ (fun r => rfl) (fun r => rfl)
    have htot3 : run_total (update_run db2 aid
        (fun r => { r with phase := some RunPhase.lens_discovery })) aid
        = run_total db2 aid :=
      run_total_update_pres db2 aid _ (fun r => rfl) (fun r => rfl)
    rcases h2eq : phase2_lens_discovery env s user_id aid
        (update_run db2 aid (fun r => { r with phase := some RunPhase.lens_discovery }))
      with ⟨db4, err2⟩
    have hruns4 : db4.runs = (update_run db2 aid
        (fun r => { r with phase := some RunPhase.lens_discovery })).runs := by
      have := phase2_runs env s user_id aid
        (update_run db2 aid (fun r => { r with phase := some RunPhase.lens_discovery }))
      rw [h2eq] at this
      exact this
    have hac4 : run_ac db4 aid = run_ac db2 aid := by
      unfold run_ac; rw [hruns4]; exact hac3
    have htot4 : run_total db4 aid = run_total db2 aid := by
      unfold run_total; rw [hruns4]; exact htot3
    have hex4 : (db4.runs.find? (fun r => r.id == aid)).isSome := by
      rw [hruns4]; exact hex3
    cases err2 with
    | some e2 =>
      have key : run_full_pipeline env s user_id aid db
          = (fail_run db4 aid e2,
             run_ac (pipeline_begin db user_id aid) aid :: tr
               ++ [run_ac (update_run db2 aid
                    (fun r => { r with phase := some RunPhase.lens_discovery })) aid,
                   run_ac (fail_run db4 aid e2) aid]) := by
        simp [run_full_pipeline, h1eq, h2eq]
      have hacf : run_ac (fail_run db4 aid e2) aid = run_ac db4 aid := by
        unfold fail_run
        exact run_ac_update_pres db4 aid _ (fun r => rfl) (fun r => rfl)
      have htotf : run_total (fail_run db4 aid e2) aid = run_total db4 aid := by
        unfold fail_run
        exact run_total_update_pres db4 aid _ (fun r => rfl) (fun r => rfl)
      rw [key]
      refine ⟨?_, ?_, by rw [htotf, htot4, G2]⟩
      · show List.Chain' (· ≤ ·)
          (run_ac (pipeline_begin db user_id aid) aid :: tr
            ++ [run_ac (update_run db2 aid
                  (fun r => { r with phase := some RunPhase.lens_discovery })) aid,
                run_ac (fail_run db4 aid e2) aid])
        rw [hacf, hac4, hac3]
        have := chain'_snoc_dup (l := run_ac (pipeline_begin db user_id aid) aid :: tr)
          (x := run_ac db2 aid) (by simpa using G4)
        simpa using this
      · intro v hv
        rcases List.mem_cons.mp hv with hh | ht
        · rw [hh, hac1]; exact Nat.zero_le _
        · rcases List.mem_append.mp ht with h2 | h2
          · exact G3 v h2
          · rcases List.mem_cons.mp h2 with h3 | h3
            · rw [h3, hac3]; exact G5
            · have : v = run_ac (fail_run db4 aid e2) aid := by simpa using h3
              rw [this, hacf, hac4]
              exact G5
    | none =>
      have key : run_full_pipeline env s user_id aid db
          = (update_run db4 aid
              (fun r => { r with
                  status := RunStatus.complete, phase := some RunPhase.done,
                  completed_at := some env.now }),
             run_ac (pipeline_begin db user_id aid) aid :: tr
               ++ [run_ac (update_run db2 aid
                    (fun r => { r with phase := some RunPhase.lens_discovery })) aid,
                   run_ac (update_run db4 aid
                    (fun r => { r with
                        status := RunStatus.complete, phase := some RunPhase.done,
                        completed_at := some env.now })) aid]) := by
        simp [run_full_pipeline, h1eq, h2eq]
      have hacf : run_ac (update_run db4 aid
          (fun r => { r with
              status := RunStatus.complete, phase := some RunPhase.done,
              completed_at := some env.now })) aid = run_ac db4 aid :=
        run_ac_update_pres db4 aid _ (fun r => rfl) (fun r => rfl)
      have htotf : run_total (update_run db4 aid
          (fun r => { r with
              status := RunStatus.complete, phase := some RunPhase.done,
              completed_at := some env.now })) aid = run_total db4 aid :=
        run_total_update_pres db4 aid _ (fun r => rfl) (fun r => rfl)
      rw [key]
      refine ⟨?_, ?_, by rw [htotf, htot4, G2]⟩
      · show List.Chain' (· ≤ ·)
          (run_ac (pipeline_begin db user_id aid) aid :: tr
            ++ [run_ac (update_run db2 aid
                  (fun r => { r with phase := some RunPhase.lens_discovery })) aid,
                run_ac (update_run db4 aid
                  (fun r => { r with
                      status := RunStatus.complete, phase := some RunPhase.done,
                      completed_at := some env.now })) aid])
        rw [hacf, hac4, hac3]
        have := chain'_snoc_dup (l := run_ac (pipeline_begin db user_id aid) aid :: tr)
          (x := run_ac db2 aid) (by simpa using G4)
        simpa using this
      · intro v hv
        rcases List.mem_cons.mp hv with hh | ht
        · rw [hh, hac1]; exact Nat.zero_le _
        · rcases List.mem_append.mp ht with h2 | h2
          · exact G3 v h2
          · rcases List.mem_cons.mp h2 with h3 | h3
            · rw [h3, hac3]; exact G5
            · have : v = run_ac (update_run db4 aid
                  (fun r => { r with
                      status := RunStatus.complete, phase := some RunPhase.done,
                      completed_at := some env.now })) aid := by simpa using h3
              rw [this, hacf, hac4]
              exact G5

/-- Witness for C4 at a concrete database and a pending run with
`analyzed_count = 0`: the committed values are non-decreasing and the
final `total_drawings` is the owner's item count. -/
theorem claim_C4_witness :
    List.Chain' (· ≤ ·) (run_full_pipeline envDown defaultSettings 1 1 dbTwo).2 ∧
    run_total (run_full_pipeline envDown defaultSettings 1 1 dbTwo).1 1
      = count_user_drawings dbTwo 1 :=
  ⟨(claim_C4_analyzed_count_monotone envDown defaultSettings 1 1 dbTwo
      (by decide) (by decide)).1,
   (claim_C4_analyzed_count_monotone envDown defaultSettings 1 1 dbTwo
      (by decide) (by decide)).2.2⟩
